import Mathlib

/-!
Shallow embedding of the Share Catalog Core of `src/meta/api/src/share_api_impl.rs`:
the eight `ShareApi` operations implemented as retrying compare-and-swap
transactions over a versioned key-value store.

Conventions of the embedding:
* machine integers (`u64`) become `Nat` (no arithmetic here ever overflows:
  ids and sequence numbers are only compared for equality or against zero);
* timestamps (`DateTime<Utc>`) become `Nat` (they are opaque to the core);
* privilege bitsets (`ShareGrantObjectPrivilege`) become `Nat` bit masks,
  with `&&&` / `|||` / `Nat.ldiff` for the bitwise tests the code performs;
* the ordered sets (`BTreeSet`) become duplicate-free `List`s with
  insert-if-absent and filter-out as the set operations;
* fallible Rust functions (`Result<_, MetaError>`) become `Except AppError _`;
* each KV read helper takes the KV state explicitly; `send_txn` and `fetch_id`
  results are supplied through a per-attempt environment, since they depend on
  concurrent activity the core cannot observe.

The entity types and the pure methods of `ShareMeta` / `ObjectSharedByShareIds`
live in the crate `common_meta_app::share`, which is not part of the source
tree here; those definitions are modelled from the specification (each carries
a `Modelled from the spec:` doc comment). Everything else is translated
directly from `share_api_impl.rs`.
-/

namespace ShareCatalog

/-- The `ShareNameIdent { tenant, share_name }`: the forward name key of a share. -/
structure ShareNameIdent where
  tenant : String
  share_name : String
deriving DecidableEq, Repr

/-- The `ShareAccountNameIdent { account, share_id }`: per-(account, share) key. -/
structure ShareAccountNameIdent where
  account : String
  share_id : Nat
deriving DecidableEq, Repr

/-- The `ShareGrantObject`: tagged id of a shared object (`Database(db_id)` or
`Table(table_id)`). -/
inductive ShareGrantObject where
  | Database (db_id : Nat)
  | Table (table_id : Nat)
deriving DecidableEq, Repr

/-- The `ShareGrantObjectName`: an object referred to by name in a request. -/
inductive ShareGrantObjectName where
  | Database (db_name : String)
  | Table (db_name : String) (table_name : String)
deriving DecidableEq, Repr

/-- Display form of an object name, used in `WrongShareObject` errors. -/
def ShareGrantObjectName.toText : ShareGrantObjectName → String
  | .Database db_name => db_name
  | .Table db_name table_name => db_name ++ "." ++ table_name

/-- The application-level error taxonomy of §7, each constructor carrying the
context that identifies the offending entity (human-readable context strings
of the source are dropped). -/
inductive AppError where
  | UnknownShare (share_name : String)
  | UnknownShareId (share_id : Nat)
  | UnknownShareAccounts (accounts : List String) (share_id : Nat)
  | ShareAlreadyExists (share_name : String)
  | ShareAccountsAlreadyExists (share_name : String) (accounts : List String)
  | WrongShare (share_name : String)
  | WrongShareObject (obj : String)
  | UnknownDatabase (db_name : String)
  | UnknownTable (table_name : String)
  | TxnRetryMaxTimes (op : String) (times : Nat)
deriving DecidableEq, Repr

/-- Modelled from the spec: `GrantEntry = { object, privileges: bitset,
grant_on: timestamp }` (one grant inside a `ShareMeta`). -/
structure ShareGrantEntry where
  object : ShareGrantObject
  privileges : Nat
  grant_on : Nat
deriving DecidableEq, Repr

/-- Modelled from the spec: `ShareMeta`, the authoritative state of a share:
timestamps, optional comment, the set of invited accounts, at most one
database grant, and the table grants keyed by their object. The spec keys
`entries` by a canonical string of the object; since that encoding is
injective, the embedding keys the association list by the
`ShareGrantObject` itself. -/
structure ShareMeta where
  database : Option ShareGrantEntry
  entries : List (ShareGrantObject × ShareGrantEntry)
  accounts : List String
  comment : Option String
  share_on : Nat
  update_on : Nat
deriving DecidableEq, Repr

/-- Modelled from the spec: `ShareMeta::new(create_on, comment)` starts with
`accounts = {}`, `database = None`, `entries = {}`. -/
def ShareMeta.new (create_on : Nat) (comment : Option String) : ShareMeta :=
  { database := none
    entries := []
    accounts := []
    comment := comment
    share_on := create_on
    update_on := create_on }

/-- Modelled from the spec: `has_account(a)`. -/
def ShareMeta.has_account (m : ShareMeta) (a : String) : Bool :=
  m.accounts.contains a

/-- Modelled from the spec: `add_account(a)` inserts into the account set. -/
def ShareMeta.add_account (m : ShareMeta) (a : String) : ShareMeta :=
  if m.accounts.contains a then m else { m with accounts := m.accounts ++ [a] }

/-- Modelled from the spec: `del_account(a)` removes from the account set. -/
def ShareMeta.del_account (m : ShareMeta) (a : String) : ShareMeta :=
  { m with accounts := m.accounts.filter (fun b => b ≠ a) }

/-- Modelled from the spec: `get_accounts()`. -/
def ShareMeta.get_accounts (m : ShareMeta) : List String :=
  m.accounts

/-- Lookup of a table grant entry in the `entries` map. -/
def ShareMeta.findEntry (m : ShareMeta) (object : ShareGrantObject) :
    Option ShareGrantEntry :=
  (m.entries.find? (fun p => p.1 = object)).map (fun p => p.2)

/-- Upsert of a table grant entry in the `entries` map. -/
def ShareMeta.setEntry (m : ShareMeta) (object : ShareGrantObject)
    (e : ShareGrantEntry) : ShareMeta :=
  if (m.entries.find? (fun p => p.1 = object)).isSome then
    { m with entries := m.entries.map (fun p => if p.1 = object then (object, e) else p) }
  else
    { m with entries := m.entries ++ [(object, e)] }

/-- Modelled from the spec: `grant_object_privileges(object, privileges,
grant_on)`. A `Database` object replaces `database` with a fresh entry
(callers run `check_share_object` first, so the stored and granted db ids
agree); a `Table` object upserts into `entries`, OR-merging privilege bits
and refreshing `grant_on`. -/
def ShareMeta.grant_object_privileges (m : ShareMeta) (object : ShareGrantObject)
    (privileges : Nat) (grant_on : Nat) : ShareMeta :=
  match object with
  | .Database _ =>
      { m with database := some { object := object, privileges := privileges, grant_on := grant_on } }
  | .Table _ =>
      match m.findEntry object with
      | none => m.setEntry object { object := object, privileges := privileges, grant_on := grant_on }
      | some e => m.setEntry object
          { object := object, privileges := e.privileges ||| privileges, grant_on := grant_on }

/-- Modelled from the spec: `get_grant_entry(object)`. -/
def ShareMeta.get_grant_entry (m : ShareMeta) (object : ShareGrantObject) :
    Option ShareGrantEntry :=
  match object with
  | .Database _ =>
      match m.database with
      | some entry => if entry.object = object then some entry else none
      | none => none
  | .Table _ => m.findEntry object

/-- Modelled from the spec: `ObjectSharedByShareIds`, the reverse index from a
shared object to the set of share ids referencing it. -/
structure ObjectSharedByShareIds where
  share_ids : List Nat
deriving DecidableEq, Repr

/-- Modelled from the spec: the default reverse-index value is the empty set. -/
def ObjectSharedByShareIds.empty : ObjectSharedByShareIds :=
  { share_ids := [] }

/-- Modelled from the spec: `add(share_id)` inserts into the id set. -/
def ObjectSharedByShareIds.add (s : ObjectSharedByShareIds) (share_id : Nat) :
    ObjectSharedByShareIds :=
  if s.share_ids.contains share_id then s
  else { share_ids := s.share_ids ++ [share_id] }

/-- Modelled from the spec: `remove(share_id)` removes from the id set. -/
def ObjectSharedByShareIds.remove (s : ObjectSharedByShareIds) (share_id : Nat) :
    ObjectSharedByShareIds :=
  { share_ids := s.share_ids.filter (fun i => i ≠ share_id) }

/-- The `DatabaseMeta` as far as the share core touches it: only the
`shared_by` set of share ids matters (the rest is pinned by seq only). -/
structure DatabaseMeta where
  shared_by : List Nat
deriving DecidableEq, Repr

/-- The `DbMeta.shared_by.insert(share_id)` (`BTreeSet::insert`). -/
def DatabaseMeta.insertSharedBy (d : DatabaseMeta) (share_id : Nat) : DatabaseMeta :=
  if d.shared_by.contains share_id then d
  else { shared_by := d.shared_by ++ [share_id] }

/-- The `DbMeta.shared_by.remove(&share_id)` (`BTreeSet::remove`). -/
def DatabaseMeta.removeSharedBy (d : DatabaseMeta) (share_id : Nat) : DatabaseMeta :=
  { shared_by := d.shared_by.filter (fun i => i ≠ share_id) }

/-- The `ShareAccountMeta { account, share_id, share_on }`. -/
structure ShareAccountMeta where
  account : String
  share_id : Nat
  share_on : Nat
deriving DecidableEq, Repr

/-- The `ShareAccountMeta::new(account, share_id, share_on)`. -/
def ShareAccountMeta.new (account : String) (share_id : Nat) (share_on : Nat) :
    ShareAccountMeta :=
  { account := account, share_id := share_id, share_on := share_on }

/-- The `ShareGrantObjectSeqAndId`: the resolved object together with the sequence
numbers needed to pin its external record —
`Database(db_meta_seq, db_id, db_meta)` or `Table(db_id, table_meta_seq, table_id)`. -/
inductive ShareGrantObjectSeqAndId where
  | Database (db_meta_seq : Nat) (db_id : Nat) (db_meta : DatabaseMeta)
  | Table (db_id : Nat) (table_meta_seq : Nat) (table_id : Nat)
deriving DecidableEq, Repr

/-- The `ShareGrantObject::new(&seq_and_id)`: forget the sequence information. -/
def ShareGrantObject.new : ShareGrantObjectSeqAndId → ShareGrantObject
  | .Database _ db_id _ => .Database db_id
  | .Table _ _ table_id => .Table table_id

/-- Modelled from the spec: `has_granted_privileges(name, seq_and_id,
privileges)` is true iff the named object matches the stored grant's id and
all requested privilege bits are already set; if the stored and requested ids
diverge it fails with `WrongShareObject`. An absent grant yields `false`. -/
def ShareMeta.has_granted_privileges (m : ShareMeta)
    (obj_name : ShareGrantObjectName) (seq_and_id : ShareGrantObjectSeqAndId)
    (privileges : Nat) : Except AppError Bool :=
  match seq_and_id with
  | .Database _ db_id _ =>
      match m.database with
      | none => .ok false
      | some entry =>
          match entry.object with
          | .Database stored_id =>
              if stored_id = db_id then
                .ok (privileges &&& entry.privileges = privileges)
              else
                .error (.WrongShareObject obj_name.toText)
          | .Table _ => .error (.WrongShareObject obj_name.toText)
  | .Table _ _ table_id =>
      match m.findEntry (.Table table_id) with
      | none => .ok false
      | some entry => .ok (privileges &&& entry.privileges = privileges)

/-- Bitwise AND-NOT — the bits of `stored` with the bits of `cleared` turned
off. Written with xor/and (for `a, b`: `a &&& ~b = a ^^^ (a &&& b)`), which
the kernel evaluates on literals. -/
def clearBits (stored cleared : Nat) : Nat :=
  stored ^^^ (stored &&& cleared)

/-- Modelled from the spec: `revoke_object_privileges(object, privileges,
update_on)` clears the requested bits; when the resulting bitset is empty it
removes the entry — for a database grant this sets `database = None`, which
requires every table entry to be revoked already and otherwise fails with
`WrongShareObject`. Revoking where no grant is stored leaves the meta
unchanged (callers guard with `has_granted_privileges`). -/
def ShareMeta.revoke_object_privileges (m : ShareMeta) (object : ShareGrantObject)
    (privileges : Nat) (update_on : Nat) : Except AppError ShareMeta :=
  match object with
  | .Database db_id =>
      match m.database with
      | none => .ok m
      | some entry =>
          let remaining := clearBits entry.privileges privileges
          if remaining = 0 then
            if m.entries.isEmpty then
              .ok { m with database := none, update_on := update_on }
            else
              .error (.WrongShareObject (toString db_id))
          else
            .ok { m with
                    database := some { entry with privileges := remaining }
                    update_on := update_on }
  | .Table _ =>
      match m.findEntry object with
      | none => .ok m
      | some entry =>
          let remaining := clearBits entry.privileges privileges
          if remaining = 0 then
            .ok { m with
                    entries := m.entries.filter (fun p => p.1 ≠ object)
                    update_on := update_on }
          else
            .ok ((m.setEntry object { entry with privileges := remaining })
                  |> (fun m2 => { m2 with update_on := update_on }))

/-- The logical key spaces the share core reads or writes (§3). Each
constructor is one key kind with its identifying fields; kinds are disjoint
by construction, mirroring the disjoint key prefixes. -/
inductive Key where
  | shareName (ident : ShareNameIdent)
  | shareId (share_id : Nat)
  | shareIdToName (share_id : Nat)
  | shareAccount (ident : ShareAccountNameIdent)
  | objectSharedBy (object : ShareGrantObject)
  | databaseId (db_id : Nat)
  | dbNameIdent (tenant : String) (db_name : String)
  | dbIdTableName (db_id : Nat) (table_name : String)
  | tableId (table_id : Nat)
deriving DecidableEq, Repr

/-- The values stored under the keys above. Serialization in the source is an
injective protobuf encoding; the embedding stores the decoded value directly. -/
inductive Value where
  | u64 (n : Nat)
  | shareMeta (m : ShareMeta)
  | nameIdent (n : ShareNameIdent)
  | accountMeta (m : ShareAccountMeta)
  | shareIds (s : ObjectSharedByShareIds)
  | dbMeta (d : DatabaseMeta)
  | tableMeta
deriving DecidableEq, Repr

/-- A transaction condition: the source only ever uses the `Eq` comparison on
a key's sequence number, so a condition is a `(key, expected seq)` pair. -/
structure TxnCondition where
  key : Key
  seq : Nat
deriving DecidableEq, Repr

/-- A transaction effect: put a value at a key or delete a key. -/
inductive TxnOp where
  | put (key : Key) (value : Value)
  | del (key : Key)
deriving DecidableEq, Repr

/-- The `TxnRequest { condition, if_then, else_then }`: the `if_then` ops apply
atomically iff every condition holds; the share core always passes an empty
`else_then`. -/
structure TxnRequest where
  condition : List TxnCondition
  if_then : List TxnOp
  else_then : List TxnOp := []
deriving DecidableEq, Repr

/-- The `txn_cond_seq(key, Eq, seq)`. -/
def txn_cond_seq (key : Key) (seq : Nat) : TxnCondition :=
  { key := key, seq := seq }

/-- The `txn_op_put(key, value)`. -/
def txn_op_put (key : Key) (value : Value) : TxnOp :=
  .put key value

/-- The `txn_op_del(key)`. -/
def txn_op_del (key : Key) : TxnOp :=
  .del key

/-- The KV store state: each key maps to its sequence number and current
value; `seq = 0` means absent (`value = none`). -/
def KVState : Type :=
  Key → Nat × Option Value

/-- The `get_u64_value(key) → (seq, u64)`: `(0, 0)` when absent. -/
def get_u64_value (σ : KVState) (key : Key) : Nat × Nat :=
  match σ key with
  | (seq, some (.u64 n)) => (seq, n)
  | (seq, _) => (seq, 0)

/-- Read of a `ShareMeta` record: `(seq, value)` with `none` when absent. -/
def getShareMetaValue (σ : KVState) (share_id : Nat) : Nat × Option ShareMeta :=
  match σ (.shareId share_id) with
  | (seq, some (.shareMeta m)) => (seq, some m)
  | (seq, _) => (seq, none)

/-- Read of a `ShareIdToName` record. -/
def getShareIdToNameValue (σ : KVState) (share_id : Nat) : Nat × Option ShareNameIdent :=
  match σ (.shareIdToName share_id) with
  | (seq, some (.nameIdent n)) => (seq, some n)
  | (seq, _) => (seq, none)

/-- Read of a `ShareAccountMeta` record. -/
def getShareAccountMetaValue (σ : KVState) (ident : ShareAccountNameIdent) :
    Nat × Option ShareAccountMeta :=
  match σ (.shareAccount ident) with
  | (seq, some (.accountMeta m)) => (seq, some m)
  | (seq, _) => (seq, none)

/-- Read of a `DatabaseMeta` record. -/
def getDbMetaValue (σ : KVState) (db_id : Nat) : Nat × Option DatabaseMeta :=
  match σ (.databaseId db_id) with
  | (seq, some (.dbMeta d)) => (seq, some d)
  | (seq, _) => (seq, none)

/-- The `get_object_shared_by_share_ids`: reads the reverse index of an object,
defaulting to `(0, empty)` when the record is absent. -/
def get_object_shared_by_share_ids (σ : KVState) (object : ShareGrantObject) :
    Nat × ObjectSharedByShareIds :=
  match σ (.objectSharedBy object) with
  | (seq, some (.shareIds s)) => (seq, s)
  | (_, _) => (0, ObjectSharedByShareIds.empty)

/-- The `get_share_meta_by_id_or_err`: returns `(share_meta_seq, share_meta)`,
failing with `UnknownShareId` when the record is absent. -/
def get_share_meta_by_id_or_err (σ : KVState) (share_id : Nat) :
    Except AppError (Nat × ShareMeta) :=
  match getShareMetaValue σ share_id with
  | (seq, some m) => if seq = 0 then .error (.UnknownShareId share_id) else .ok (seq, m)
  | (_, none) => .error (.UnknownShareId share_id)

/-- The `get_share_id_to_name_or_err`: returns `(share_name_seq, share_name)`,
failing with `UnknownShareId` when the reverse record is absent. -/
def get_share_id_to_name_or_err (σ : KVState) (share_id : Nat) :
    Except AppError (Nat × ShareNameIdent) :=
  match getShareIdToNameValue σ share_id with
  | (seq, some n) => if seq = 0 then .error (.UnknownShareId share_id) else .ok (seq, n)
  | (_, none) => .error (.UnknownShareId share_id)

/-- The `get_share_account_meta_or_err`: returns `(seq, ShareAccountMeta)`,
failing with `UnknownShareAccounts` when the record is absent. -/
def get_share_account_meta_or_err (σ : KVState) (ident : ShareAccountNameIdent) :
    Except AppError (Nat × ShareAccountMeta) :=
  match getShareAccountMetaValue σ ident with
  | (seq, some m) =>
      if seq = 0 then .error (.UnknownShareAccounts [ident.account] ident.share_id)
      else .ok (seq, m)
  | (_, none) => .error (.UnknownShareAccounts [ident.account] ident.share_id)

/-- The `get_share_or_err`: reads the forward name key then the meta record and
returns `(share_id_seq, share_id, share_meta_seq, share_meta)`; absence of the
name yields `UnknownShare`, absence of the meta `UnknownShareId`. -/
def get_share_or_err (σ : KVState) (name_key : ShareNameIdent) :
    Except AppError (Nat × Nat × Nat × ShareMeta) :=
  let r := get_u64_value σ (.shareName name_key)
  if r.1 = 0 then .error (.UnknownShare name_key.share_name)
  else
    match get_share_meta_by_id_or_err σ r.2 with
    | .error e => .error e
    | .ok (share_meta_seq, share_meta) => .ok (r.1, r.2, share_meta_seq, share_meta)

/-- Modelled from the spec: `get_db_or_err` (KV adapter helper outside this
source tree) resolves a database name to
`(db_id_seq, db_id, db_meta_seq, db_meta)`, failing with `UnknownDatabase`
when the name or the meta record is absent. -/
def get_db_or_err (σ : KVState) (tenant : String) (db_name : String) :
    Except AppError (Nat × Nat × Nat × DatabaseMeta) :=
  let r := get_u64_value σ (.dbNameIdent tenant db_name)
  if r.1 = 0 then .error (.UnknownDatabase db_name)
  else
    match getDbMetaValue σ r.2 with
    | (db_meta_seq, some db_meta) =>
        if db_meta_seq = 0 then .error (.UnknownDatabase db_name)
        else .ok (r.1, r.2, db_meta_seq, db_meta)
    | (_, none) => .error (.UnknownDatabase db_name)

/-- The `check_share_object(database, seq_and_id, obj_name)`: with a current
database grant, the requested object's db id (itself for a database, the
parent for a table) must equal the granted db id; with no database grant,
granting a table is refused. The source marks a stored non-database grant
in the `database` field as unreachable; the embedding returns
`WrongShare` there. -/
def check_share_object (database : Option ShareGrantEntry)
    (seq_and_id : ShareGrantObjectSeqAndId) (obj_name : ShareGrantObjectName) :
    Except AppError Unit :=
  match database with
  | some entry =>
      match entry.object with
      | .Database db_id =>
          let object_db_id :=
            match seq_and_id with
            | .Database _ id _ => id
            | .Table id _ _ => id
          if db_id ≠ object_db_id then
            .error (.WrongShareObject obj_name.toText)
          else
            .ok ()
      | .Table _ => .error (.WrongShare obj_name.toText)
  | none =>
      match seq_and_id with
      | .Table _ _ _ => .error (.WrongShareObject obj_name.toText)
      | .Database _ _ _ => .ok ()

/-- The `get_share_object_seq_and_id(obj_name, tenant)`: resolves an object name
to ids plus the sequence numbers pinning its external records
(`UnknownDatabase` / `UnknownTable` on absent names). -/
def get_share_object_seq_and_id (σ : KVState) (obj_name : ShareGrantObjectName)
    (tenant : String) : Except AppError ShareGrantObjectSeqAndId :=
  match obj_name with
  | .Database db_name =>
      match get_db_or_err σ tenant db_name with
      | .error e => .error e
      | .ok (_db_id_seq, db_id, db_meta_seq, db_meta) =>
          .ok (.Database db_meta_seq db_id db_meta)
  | .Table db_name table_name =>
      let rdb := get_u64_value σ (.dbNameIdent tenant db_name)
      if rdb.1 = 0 then .error (.UnknownDatabase db_name)
      else
        let rtb := get_u64_value σ (.dbIdTableName rdb.2 table_name)
        if rtb.1 = 0 then .error (.UnknownTable table_name)
        else
          let table_meta_seq := (σ (.tableId rtb.2)).1
          .ok (.Table rdb.2 table_meta_seq rtb.2)

/-- The `add_txn_condition(seq_and_id, condition)`: the extra condition pinning
the resolved object's external record; returned as the list appended to the
condition list. -/
def add_txn_condition (seq_and_id : ShareGrantObjectSeqAndId) : List TxnCondition :=
  match seq_and_id with
  | .Database db_meta_seq db_id _ => [txn_cond_seq (.databaseId db_id) db_meta_seq]
  | .Table _ table_meta_seq table_id => [txn_cond_seq (.tableId table_id) table_meta_seq]

/-- The `add_grant_object_txn_if_then(share_id, seq_and_id, if_then)`: when
granting a database, upsert its `DbMeta` with `share_id` inserted into
`shared_by` — but only when not already present; granting a table adds
nothing. Returned as the list appended to `if_then`. -/
def add_grant_object_txn_if_then (share_id : Nat)
    (seq_and_id : ShareGrantObjectSeqAndId) : List TxnOp :=
  match seq_and_id with
  | .Database _ db_id db_meta =>
      if db_meta.shared_by.contains share_id then []
      else [txn_op_put (.databaseId db_id) (.dbMeta (db_meta.insertSharedBy share_id))]
  | .Table _ _ _ => []

/-- The `CreateShareReq`. -/
structure CreateShareReq where
  if_not_exists : Bool
  share_name : ShareNameIdent
  comment : Option String
  create_on : Nat
deriving DecidableEq, Repr

/-- The `CreateShareReply { share_id }`. -/
structure CreateShareReply where
  share_id : Nat
deriving DecidableEq, Repr

/-- The `DropShareReq`. -/
structure DropShareReq where
  if_exists : Bool
  share_name : ShareNameIdent
deriving DecidableEq, Repr

/-- The `DropShareReply` (empty). -/
structure DropShareReply where
deriving DecidableEq, Repr

/-- The `AddShareAccountsReq`. -/
structure AddShareAccountsReq where
  if_exists : Bool
  share_name : ShareNameIdent
  accounts : List String
  share_on : Nat
deriving DecidableEq, Repr

/-- The `AddShareAccountsReply` (empty). -/
structure AddShareAccountsReply where
deriving DecidableEq, Repr

/-- The `RemoveShareAccountsReq`. -/
structure RemoveShareAccountsReq where
  if_exists : Bool
  share_name : ShareNameIdent
  accounts : List String
deriving DecidableEq, Repr

/-- The `RemoveShareAccountsReply` (empty). -/
structure RemoveShareAccountsReply where
deriving DecidableEq, Repr

/-- The `GrantShareObjectReq`. -/
structure GrantShareObjectReq where
  share_name : ShareNameIdent
  object : ShareGrantObjectName
  privilege : Nat
  grant_on : Nat
deriving DecidableEq, Repr

/-- The `GrantShareObjectReply` (empty). -/
structure GrantShareObjectReply where
deriving DecidableEq, Repr

/-- The `RevokeShareObjectReq`. -/
structure RevokeShareObjectReq where
  share_name : ShareNameIdent
  object : ShareGrantObjectName
  privilege : Nat
  update_on : Nat
deriving DecidableEq, Repr

/-- The `RevokeShareObjectReply` (empty). -/
structure RevokeShareObjectReply where
deriving DecidableEq, Repr

/-- The `GetObjectGrantPrivilegesReq`. -/
structure GetObjectGrantPrivilegesReq where
  tenant : String
  object : ShareGrantObjectName
deriving DecidableEq, Repr

/-- The `ObjectGrantPrivilege { share_name, privileges, grant_on }`. -/
structure ObjectGrantPrivilege where
  share_name : String
  privileges : Nat
  grant_on : Nat
deriving DecidableEq, Repr

/-- The `GetObjectGrantPrivilegesReply`. -/
structure GetObjectGrantPrivilegesReply where
  privileges : List ObjectGrantPrivilege
deriving DecidableEq, Repr

/-- One iteration of a read-validate-commit loop ends either in an early
return (no transaction submitted) or in a commit attempt: the transaction
submitted plus the reply to return when the KV reports success. -/
inductive StepResult (ρ : Type) where
  | early (r : Except AppError ρ)
  | commit (txn : TxnRequest) (reply : ρ)

/-- What one attempt observes from the outside world: the KV state its reads
see, the id `fetch_id` would allocate, and whether `send_txn` reports that
the commit succeeded (a concurrent writer invalidating a pinned seq makes it
fail). -/
structure AttemptEnv where
  st : KVState
  newId : Nat
  succ : Bool

/-- The `TXN_MAX_RETRY_TIMES`: the retry budget of every mutating operation. -/
def TXN_MAX_RETRY_TIMES : Nat := 10

/-- The `while retry < TXN_MAX_RETRY_TIMES` loop common to all mutating
operations: run the attempt against the current environment; an early result
returns immediately, a successful commit returns its reply, a failed commit
consumes one unit of budget and retries against the next environment;
an exhausted budget yields `TxnRetryMaxTimes`. -/
def runRetry {ρ : Type} (opName : String) (step : AttemptEnv → StepResult ρ) :
    Nat → (Nat → AttemptEnv) → Except AppError ρ
  | 0, _ => .error (.TxnRetryMaxTimes opName TXN_MAX_RETRY_TIMES)
  | fuel + 1, envs =>
      match step (envs 0) with
      | .early r => r
      | .commit _ reply =>
          if (envs 0).succ then .ok reply
          else runRetry opName step fuel (fun k => envs (k + 1))

/-- Number of loop iterations a run performs. -/
def attemptsUsed {ρ : Type} (step : AttemptEnv → StepResult ρ) :
    Nat → (Nat → AttemptEnv) → Nat
  | 0, _ => 0
  | fuel + 1, envs =>
      match step (envs 0) with
      | .early _ => 1
      | .commit _ _ =>
          if (envs 0).succ then 1
          else 1 + attemptsUsed step fuel (fun k => envs (k + 1))

/-- The transactions a run submits to the KV, in order. -/
def submittedTxns {ρ : Type} (step : AttemptEnv → StepResult ρ) :
    Nat → (Nat → AttemptEnv) → List TxnRequest
  | 0, _ => []
  | fuel + 1, envs =>
      match step (envs 0) with
      | .early _ => []
      | .commit txn _ =>
          if (envs 0).succ then [txn]
          else txn :: submittedTxns step fuel (fun k => envs (k + 1))

/-- Whether every condition of a transaction holds in a state. -/
def txnConditionsHold (σ : KVState) (txn : TxnRequest) : Bool :=
  txn.condition.all (fun c => (σ c.key).1 == c.seq)

/-- Effect of a single put/delete on the state (a put bumps the key's seq). -/
def applyOp (σ : KVState) : TxnOp → KVState
  | .put key value => fun k => if k = key then ((σ key).1 + 1, some value) else σ k
  | .del key => fun k => if k = key then (0, none) else σ k

/-- Effect of a conditional transaction: the `if_then` ops apply atomically
iff every condition holds, otherwise the state is untouched. -/
def applyTxn (σ : KVState) (txn : TxnRequest) : KVState :=
  if txnConditionsHold σ txn then txn.if_then.foldl applyOp σ else σ

/-- Effect of a sequence of transactions. -/
def applyTxns (σ : KVState) (txns : List TxnRequest) : KVState :=
  txns.foldl applyTxn σ

/-- The `if let AppError::UnknownShare(_) = e { if req.if_exists { return
Ok(reply) } } return Err(e)` pattern shared by drop/add/remove. -/
def suppress_unknown_share {ρ : Type} (if_exists : Bool) (e : AppError)
    (reply : ρ) : Except AppError ρ :=
  match e with
  | .UnknownShare n =>
      if if_exists then .ok reply else .error (.UnknownShare n)
  | _ => .error e

/-- One attempt of `create_share`: if the name is present, reply with the
existing id under `if_not_exists` and fail `ShareAlreadyExists` otherwise;
if absent, allocate a fresh id and commit the three inserts under seq-0
conditions on the forward name key and the reverse id-to-name key. -/
def createShareStep (req : CreateShareReq) (env : AttemptEnv) :
    StepResult CreateShareReply :=
  let r := get_u64_value env.st (.shareName req.share_name)
  if r.1 > 0 then
    .early (if req.if_not_exists then .ok { share_id := r.2 }
            else .error (.ShareAlreadyExists req.share_name.share_name))
  else
    let share_id := env.newId
    .commit
      { condition := [txn_cond_seq (.shareName req.share_name) 0,
                      txn_cond_seq (.shareIdToName share_id) 0]
        if_then := [txn_op_put (.shareName req.share_name) (.u64 share_id),
                    txn_op_put (.shareId share_id)
                      (.shareMeta (ShareMeta.new req.create_on req.comment)),
                    txn_op_put (.shareIdToName share_id) (.nameIdent req.share_name)] }
      { share_id := share_id }

/-- The `create_share`. -/
def create_share (req : CreateShareReq) (envs : Nat → AttemptEnv) :
    Except AppError CreateShareReply :=
  runRetry "create_share" (createShareStep req) TXN_MAX_RETRY_TIMES envs

/-- The accounts of a share whose `ShareAccountNameIdent` record is actually
present, paired with the record's seq; accounts whose record read fails are
silently skipped (`Err(_) => {}` in the source). -/
def dropShareFoundAccounts (σ : KVState) (share_id : Nat)
    (accounts : List String) : List (ShareAccountNameIdent × Nat) :=
  accounts.filterMap (fun account =>
    match get_share_account_meta_or_err σ { account := account, share_id := share_id } with
    | .error _ => none
    | .ok (seq, _) => some ({ account := account, share_id := share_id }, seq))

/-- One attempt of `drop_share`: resolve the share (suppressing `UnknownShare`
/ `UnknownShareId` under `if_exists`), collect the account records that are
present, and commit a transaction pinning the three share records and each
found account record and deleting exactly those keys. -/
def dropShareStep (req : DropShareReq) (env : AttemptEnv) :
    StepResult DropShareReply :=
  match get_share_or_err env.st req.share_name with
  | .error e =>
      .early (match e with
              | .UnknownShare n =>
                  if req.if_exists then .ok {} else .error (.UnknownShare n)
              | _ => .error e)
  | .ok (share_id_seq, share_id, share_meta_seq, share_meta) =>
      match get_share_id_to_name_or_err env.st share_id with
      | .error e =>
          .early (match e with
                  | .UnknownShareId i =>
                      if req.if_exists then .ok {} else .error (.UnknownShareId i)
                  | _ => .error e)
      | .ok (share_name_seq, _share_name) =>
          let accounts := dropShareFoundAccounts env.st share_id share_meta.get_accounts
          .commit
            { condition := [txn_cond_seq (.shareName req.share_name) share_id_seq,
                            txn_cond_seq (.shareId share_id) share_meta_seq,
                            txn_cond_seq (.shareIdToName share_id) share_name_seq]
                           ++ accounts.map (fun a => txn_cond_seq (.shareAccount a.1) a.2)
              if_then := [txn_op_del (.shareName req.share_name),
                          txn_op_del (.shareId share_id),
                          txn_op_del (.shareIdToName share_id)]
                         ++ accounts.map (fun a => txn_op_del (.shareAccount a.1)) }
            {}

/-- The `drop_share`. -/
def drop_share (req : DropShareReq) (envs : Nat → AttemptEnv) :
    Except AppError DropShareReply :=
  runRetry "drop_share" (dropShareStep req) TXN_MAX_RETRY_TIMES envs

/-- One attempt of `add_share_tenants`: resolve the share (suppressing
`UnknownShare` under `if_exists`), filter the requested accounts — skipping
the owning tenant and accounts already present — fail
`ShareAccountsAlreadyExists` when nothing remains, and commit a transaction
that pins the name key, the meta and a zero seq for each new account record,
puts each new `ShareAccountMeta`, and puts the meta with the accounts added. -/
def addShareTenantsStep (req : AddShareAccountsReq) (env : AttemptEnv) :
    StepResult AddShareAccountsReply :=
  match get_share_or_err env.st req.share_name with
  | .error e => .early (suppress_unknown_share req.if_exists e {})
  | .ok (share_id_seq, share_id, share_meta_seq, share_meta) =>
      let add_accounts := req.accounts.filter
        (fun account => !(account == req.share_name.tenant)
                        && !(share_meta.has_account account))
      if add_accounts.isEmpty then
        .early (.error (.ShareAccountsAlreadyExists req.share_name.share_name req.accounts))
      else
        let new_meta := add_accounts.foldl (fun m a => m.add_account a) share_meta
        .commit
          { condition := [txn_cond_seq (.shareName req.share_name) share_id_seq,
                          txn_cond_seq (.shareId share_id) share_meta_seq]
                         ++ add_accounts.map (fun a =>
                              txn_cond_seq (.shareAccount { account := a, share_id := share_id }) 0)
            if_then := add_accounts.map (fun a =>
                         txn_op_put (.shareAccount { account := a, share_id := share_id })
                           (.accountMeta (ShareAccountMeta.new a share_id req.share_on)))
                       ++ [txn_op_put (.shareId share_id) (.shareMeta new_meta)] }
          {}

/-- The `add_share_tenants`. -/
def add_share_tenants (req : AddShareAccountsReq) (envs : Nat → AttemptEnv) :
    Except AppError AddShareAccountsReply :=
  runRetry "add_share_tenants" (addShareTenantsStep req) TXN_MAX_RETRY_TIMES envs

/-- The requested accounts to remove: the owning tenant and accounts not in
the share are skipped; for each remaining account the record read is
mandatory — a failure aborts the whole operation (`return Err(e)`). -/
def collectRemoveAccounts (σ : KVState) (tenant : String) (share_id : Nat)
    (share_meta : ShareMeta) :
    List String → Except AppError (List (ShareAccountNameIdent × Nat))
  | [] => .ok []
  | account :: rest =>
      if account = tenant then
        collectRemoveAccounts σ tenant share_id share_meta rest
      else if share_meta.has_account account then
        match get_share_account_meta_or_err σ { account := account, share_id := share_id } with
        | .error e => .error e
        | .ok (seq, _) =>
            match collectRemoveAccounts σ tenant share_id share_meta rest with
            | .error e => .error e
            | .ok tail =>
                .ok (({ account := account, share_id := share_id }, seq) :: tail)
      else
        collectRemoveAccounts σ tenant share_id share_meta rest

/-- One attempt of `remove_share_tenants`: resolve the share (suppressing
`UnknownShare` under `if_exists`), collect the removable accounts with their
seqs, fail `UnknownShareAccounts` when none, and commit a transaction pinning
the meta seq and each collected account seq, deleting each account record and
putting the meta with those accounts removed. -/
def removeShareTenantsStep (req : RemoveShareAccountsReq) (env : AttemptEnv) :
    StepResult RemoveShareAccountsReply :=
  match get_share_or_err env.st req.share_name with
  | .error e => .early (suppress_unknown_share req.if_exists e {})
  | .ok (_share_id_seq, share_id, share_meta_seq, share_meta) =>
      match collectRemoveAccounts env.st req.share_name.tenant share_id share_meta
              req.accounts with
      | .error e => .early (.error e)
      | .ok pairs =>
          if pairs.isEmpty then
            .early (.error (.UnknownShareAccounts req.accounts share_id))
          else
            let new_meta := pairs.foldl (fun m p => m.del_account p.1.account) share_meta
            .commit
              { condition := [txn_cond_seq (.shareId share_id) share_meta_seq]
                             ++ pairs.map (fun p => txn_cond_seq (.shareAccount p.1) p.2)
                if_then := pairs.map (fun p => txn_op_del (.shareAccount p.1))
                           ++ [txn_op_put (.shareId share_id) (.shareMeta new_meta)] }
              {}

/-- The `remove_share_tenants`. -/
def remove_share_tenants (req : RemoveShareAccountsReq) (envs : Nat → AttemptEnv) :
    Except AppError RemoveShareAccountsReply :=
  runRetry "remove_share_tenants" (removeShareTenantsStep req) TXN_MAX_RETRY_TIMES envs

/-- One attempt of `grant_share_object`: resolve share and object, run
`check_share_object`, return early success when the privileges are already
granted, otherwise commit a transaction pinning the name key, the meta, the
reverse index and the object's external record, putting the updated meta and
reverse index and — for a database not yet listing the share — the updated
`DbMeta`. -/
def grantShareObjectStep (req : GrantShareObjectReq) (env : AttemptEnv) :
    StepResult GrantShareObjectReply :=
  match get_share_or_err env.st req.share_name with
  | .error e => .early (.error e)
  | .ok (share_id_seq, share_id, share_meta_seq, share_meta) =>
      match get_share_object_seq_and_id env.st req.object req.share_name.tenant with
      | .error e => .early (.error e)
      | .ok seq_and_id =>
          match check_share_object share_meta.database seq_and_id req.object with
          | .error e => .early (.error e)
          | .ok _ =>
              match share_meta.has_granted_privileges req.object seq_and_id req.privilege with
              | .error e => .early (.error e)
              | .ok true => .early (.ok {})
              | .ok false =>
                  let object := ShareGrantObject.new seq_and_id
                  let r := get_object_shared_by_share_ids env.st object
                  let share_ids := r.2.add share_id
                  let new_meta :=
                    share_meta.grant_object_privileges object req.privilege req.grant_on
                  .commit
                    { condition := [txn_cond_seq (.shareName req.share_name) share_id_seq,
                                    txn_cond_seq (.shareId share_id) share_meta_seq,
                                    txn_cond_seq (.objectSharedBy object) r.1]
                                   ++ add_txn_condition seq_and_id
                      if_then := [txn_op_put (.shareId share_id) (.shareMeta new_meta),
                                  txn_op_put (.objectSharedBy object) (.shareIds share_ids)]
                                 ++ add_grant_object_txn_if_then share_id seq_and_id }
                    {}

/-- The `grant_share_object`. -/
def grant_share_object (req : GrantShareObjectReq) (envs : Nat → AttemptEnv) :
    Except AppError GrantShareObjectReply :=
  runRetry "grant_share_object" (grantShareObjectStep req) TXN_MAX_RETRY_TIMES envs

/-- One attempt of `revoke_share_object`: resolve share and object, run
`check_share_object`, return early success when the privileges are not
granted, otherwise revoke in the meta (which may fail `WrongShareObject`),
and commit a transaction pinning the same records as grant, putting the
updated meta and reverse index, and — for a database object, always — the
`DbMeta` with the share removed from `shared_by`. -/
def revokeShareObjectStep (req : RevokeShareObjectReq) (env : AttemptEnv) :
    StepResult RevokeShareObjectReply :=
  match get_share_or_err env.st req.share_name with
  | .error e => .early (.error e)
  | .ok (share_id_seq, share_id, share_meta_seq, share_meta) =>
      match get_share_object_seq_and_id env.st req.object req.share_name.tenant with
      | .error e => .early (.error e)
      | .ok seq_and_id =>
          match check_share_object share_meta.database seq_and_id req.object with
          | .error e => .early (.error e)
          | .ok _ =>
              match share_meta.has_granted_privileges req.object seq_and_id req.privilege with
              | .error e => .early (.error e)
              | .ok false => .early (.ok {})
              | .ok true =>
                  let object := ShareGrantObject.new seq_and_id
                  match share_meta.revoke_object_privileges object req.privilege req.update_on with
                  | .error e => .early (.error e)
                  | .ok new_meta =>
                      let r := get_object_shared_by_share_ids env.st object
                      let share_ids := r.2.remove share_id
                      .commit
                        { condition := [txn_cond_seq (.shareName req.share_name) share_id_seq,
                                        txn_cond_seq (.shareId share_id) share_meta_seq,
                                        txn_cond_seq (.objectSharedBy object) r.1]
                                       ++ add_txn_condition seq_and_id
                          if_then := [txn_op_put (.shareId share_id) (.shareMeta new_meta),
                                      txn_op_put (.objectSharedBy object) (.shareIds share_ids)]
                                     ++ (match seq_and_id with
                                         | .Database _ db_id db_meta =>
                                             [txn_op_put (.databaseId db_id)
                                               (.dbMeta (db_meta.removeSharedBy share_id))]
                                         | .Table _ _ _ => []) }
                        {}

/-- The `revoke_share_object`. -/
def revoke_share_object (req : RevokeShareObjectReq) (envs : Nat → AttemptEnv) :
    Except AppError RevokeShareObjectReply :=
  runRetry "revoke_share_object" (revokeShareObjectStep req) TXN_MAX_RETRY_TIMES envs

/-- The member loop of `get_grant_privileges_of_object`: for each share id of
the reverse index, read `ShareIdToName` then `ShareMeta` — both mandatory,
a missing record aborts with the lookup error — and record the share's grant
entry for the object (possibly `none`) with the share's name. -/
def collectObjectGrantEntries (σ : KVState) (object : ShareGrantObject) :
    List Nat → Except AppError (List (Option ShareGrantEntry × String))
  | [] => .ok []
  | share_id :: rest =>
      match get_share_id_to_name_or_err σ share_id with
      | .error e => .error e
      | .ok (_, share_name) =>
          match get_share_meta_by_id_or_err σ share_id with
          | .error e => .error e
          | .ok (_, share_meta) =>
              match collectObjectGrantEntries σ object rest with
              | .error e => .error e
              | .ok tail =>
                  .ok ((share_meta.get_grant_entry object, share_name.share_name) :: tail)

/-- The `get_grant_privileges_of_object`: resolve the object name (failing
`UnknownDatabase` / `UnknownTable`), read its reverse index, collect each
member share's grant entry, and emit one `ObjectGrantPrivilege` per member
whose entry is present — members whose entry is `None` are skipped. -/
def get_grant_privileges_of_object (σ : KVState)
    (req : GetObjectGrantPrivilegesReq) :
    Except AppError GetObjectGrantPrivilegesReply :=
  match req.object with
  | .Database db_name =>
      let rdb := get_u64_value σ (.dbNameIdent req.tenant db_name)
      if rdb.1 = 0 then .error (.UnknownDatabase db_name)
      else
        let object := ShareGrantObject.Database rdb.2
        let rids := get_object_shared_by_share_ids σ object
        match collectObjectGrantEntries σ object rids.2.share_ids with
        | .error e => .error e
        | .ok entries =>
            .ok { privileges := entries.filterMap (fun p =>
                    p.1.map (fun entry =>
                      { share_name := p.2
                        privileges := entry.privileges
                        grant_on := entry.grant_on })) }
  | .Table db_name table_name =>
      let rdb := get_u64_value σ (.dbNameIdent req.tenant db_name)
      if rdb.1 = 0 then .error (.UnknownDatabase db_name)
      else
        let rtb := get_u64_value σ (.dbIdTableName rdb.2 table_name)
        if rtb.1 = 0 then .error (.UnknownTable table_name)
        else
          let object := ShareGrantObject.Table rtb.2
          let rids := get_object_shared_by_share_ids σ object
          match collectObjectGrantEntries σ object rids.2.share_ids with
          | .error e => .error e
          | .ok entries =>
              .ok { privileges := entries.filterMap (fun p =>
                      p.1.map (fun entry =>
                        { share_name := p.2
                          privileges := entry.privileges
                          grant_on := entry.grant_on })) }

/-- Whether a step ended in a commit attempt. -/
def StepResult.isCommit {ρ : Type} : StepResult ρ → Bool
  | .early _ => false
  | .commit _ _ => true

/-- The db id a resolved object belongs to: itself for a database, the parent
db id for a table. -/
def ShareGrantObjectSeqAndId.dbId : ShareGrantObjectSeqAndId → Nat
  | .Database _ db_id _ => db_id
  | .Table db_id _ _ => db_id

/-- An attempt that returns early settles the whole loop with its result. -/
theorem runRetry_early {ρ : Type} (opName : String)
    (step : AttemptEnv → StepResult ρ) (fuel : Nat) (envs : Nat → AttemptEnv)
    (r : Except AppError ρ) (h : step (envs 0) = .early r) :
    runRetry opName step (fuel + 1) envs = r := by
  simp [runRetry, h]

/-- An attempt that returns early submits no transaction. -/
theorem submittedTxns_early {ρ : Type} (step : AttemptEnv → StepResult ρ)
    (fuel : Nat) (envs : Nat → AttemptEnv) (r : Except AppError ρ)
    (h : step (envs 0) = .early r) :
    submittedTxns step (fuel + 1) envs = [] := by
  simp [submittedTxns, h]

/-- A successful commit settles the loop with the commit's reply. -/
theorem runRetry_commit_succ {ρ : Type} (opName : String)
    (step : AttemptEnv → StepResult ρ) (fuel : Nat) (envs : Nat → AttemptEnv)
    (txn : TxnRequest) (reply : ρ) (h : step (envs 0) = .commit txn reply)
    (hs : (envs 0).succ = true) :
    runRetry opName step (fuel + 1) envs = .ok reply := by
  simp [runRetry, h, hs]

/-- The loop performs at most `fuel` iterations. -/
theorem attemptsUsed_le {ρ : Type} (step : AttemptEnv → StepResult ρ) :
    ∀ (fuel : Nat) (envs : Nat → AttemptEnv), attemptsUsed step fuel envs ≤ fuel := by
  intro fuel
  induction fuel with
  | zero => intro envs; simp [attemptsUsed]
  | succ n ih =>
      intro envs
      unfold attemptsUsed
      cases hs : step (envs 0) with
      | early r => simp
      | commit t r =>
          by_cases hsucc : (envs 0).succ = true
          · simp [hsucc]
          · simp [hsucc]
            have := ih (fun k => envs (k + 1))
            omega

/-- When every attempt within the budget reaches a commit that the KV
rejects, the loop exhausts its budget and reports `TxnRetryMaxTimes`. -/
theorem runRetry_exhaust {ρ : Type} (opName : String)
    (step : AttemptEnv → StepResult ρ) :
    ∀ (fuel : Nat) (envs : Nat → AttemptEnv),
      (∀ k, k < fuel → (step (envs k)).isCommit = true ∧ (envs k).succ = false) →
      runRetry opName step fuel envs
        = .error (.TxnRetryMaxTimes opName TXN_MAX_RETRY_TIMES) := by
  intro fuel
  induction fuel with
  | zero => intro envs _; rfl
  | succ n ih =>
      intro envs h
      obtain ⟨hc, hsucc⟩ := h 0 (Nat.succ_pos n)
      unfold runRetry
      cases hs : step (envs 0) with
      | early r => rw [hs] at hc; simp [StepResult.isCommit] at hc
      | commit t r =>
          simp [hsucc]
          exact ih (fun k => envs (k + 1)) (fun k hk => h (k + 1) (Nat.succ_lt_succ hk))

/-- The `add_account` introduces no account other than the one added. -/
theorem add_account_not_mem (m : ShareMeta) (a b : String)
    (hm : a ∉ m.accounts) (hb : b ≠ a) : a ∉ (m.add_account b).accounts := by
  unfold ShareMeta.add_account
  split
  · exact hm
  · simp only [List.mem_append, List.mem_singleton]
    rintro (h | h)
    · exact hm h
    · exact hb h.symm

/-- Folding `add_account` over a list avoiding `a` keeps `a` out. -/
theorem foldl_add_account_not_mem :
    ∀ (l : List String) (m : ShareMeta) (a : String), a ∉ m.accounts →
      (∀ b ∈ l, b ≠ a) →
      a ∉ (l.foldl (fun m b => m.add_account b) m).accounts := by
  intro l
  induction l with
  | nil => intro m a hm _; exact hm
  | cons x xs ih =>
      intro m a hm hl
      simp only [List.foldl_cons]
      exact ih (m.add_account x) a
        (add_account_not_mem m a x hm (hl x (List.mem_cons_self x xs)))
        (fun b hb => hl b (List.mem_cons_of_mem x hb))

/-- The `del_account` introduces no account. -/
theorem del_account_not_mem (m : ShareMeta) (a b : String)
    (hm : a ∉ m.accounts) : a ∉ (m.del_account b).accounts := by
  unfold ShareMeta.del_account
  intro h
  exact hm (List.mem_of_mem_filter h)

/-- Folding `del_account` introduces no account. -/
theorem foldl_del_account_not_mem {α : Type} (f : α → String) :
    ∀ (l : List α) (m : ShareMeta) (a : String), a ∉ m.accounts →
      a ∉ (l.foldl (fun m p => m.del_account (f p)) m).accounts := by
  intro l
  induction l with
  | nil => intro m a hm; exact hm
  | cons x xs ih =>
      intro m a hm
      simp only [List.foldl_cons]
      exact ih (m.del_account (f x)) a (del_account_not_mem m a (f x) hm)

/-- The `setEntry` only touches the `entries` field. -/
theorem setEntry_accounts (m : ShareMeta) (o : ShareGrantObject)
    (e : ShareGrantEntry) : (m.setEntry o e).accounts = m.accounts := by
  unfold ShareMeta.setEntry
  split <;> rfl

/-- The `grant_object_privileges` leaves the account set untouched. -/
theorem grant_object_privileges_accounts (m : ShareMeta) (o : ShareGrantObject)
    (p t : Nat) : (m.grant_object_privileges o p t).accounts = m.accounts := by
  unfold ShareMeta.grant_object_privileges
  cases o with
  | Database db_id => rfl
  | Table table_id =>
      cases m.findEntry (.Table table_id) <;> simp [setEntry_accounts]

/-- The `revoke_object_privileges` leaves the account set untouched. -/
theorem revoke_object_privileges_accounts (m : ShareMeta) (o : ShareGrantObject)
    (p t : Nat) (m2 : ShareMeta)
    (h : m.revoke_object_privileges o p t = .ok m2) : m2.accounts = m.accounts := by
  unfold ShareMeta.revoke_object_privileges at h
  cases o with
  | Database db_id =>
      cases hdb : m.database with
      | none => rw [hdb] at h; cases h; rfl
      | some entry =>
          rw [hdb] at h
          simp only at h
          split at h
          · split at h
            · cases h; rfl
            · cases h
          · cases h; rfl
  | Table table_id =>
      cases hf : m.findEntry (.Table table_id) with
      | none => rw [hf] at h; cases h; rfl
      | some entry =>
          rw [hf] at h
          simp only at h
          split at h
          · cases h; rfl
          · cases h; simp [setEntry_accounts]

/-- Empty KV state: every key absent. -/
def stEmpty : KVState := fun _ => (0, none)

/-- A `ShareMeta` with a granted database `1` (privileges bitset `3`) and the
single invited account `B`. -/
def metaShareDb : ShareMeta :=
  { database := some { object := .Database 1, privileges := 3, grant_on := 11 }
    entries := []
    accounts := ["B"]
    comment := none
    share_on := 10
    update_on := 10 }

/-- KV state with tenant `A`'s share `s1` (id 7, meta `metaShareDb`), its
account record for `B`, database `db` (id 1, shared by share 7) and its
table `t` (id 2). -/
def stShareDb : KVState := fun k =>
  match k with
  | .shareName ⟨"A", "s1"⟩ => (3, some (.u64 7))
  | .shareId 7 => (5, some (.shareMeta metaShareDb))
  | .shareIdToName 7 => (4, some (.nameIdent ⟨"A", "s1"⟩))
  | .shareAccount ⟨"B", 7⟩ => (6, some (.accountMeta (ShareAccountMeta.new "B" 7 12)))
  | .dbNameIdent "A" "db" => (8, some (.u64 1))
  | .databaseId 1 => (9, some (.dbMeta { shared_by := [7] }))
  | .dbIdTableName 1 "t" => (13, some (.u64 2))
  | .tableId 2 => (14, some .tableMeta)
  | _ => (0, none)

/-- A `ShareMeta` with no database grant and no accounts. -/
def metaShareFresh : ShareMeta :=
  { database := none
    entries := []
    accounts := []
    comment := none
    share_on := 10
    update_on := 10 }

/-- KV state with tenant `A`'s share `s2` (id 8, fresh meta), database `db`
(id 1) and its table `t` (id 2). -/
def stShareFresh : KVState := fun k =>
  match k with
  | .shareName ⟨"A", "s2"⟩ => (3, some (.u64 8))
  | .shareId 8 => (5, some (.shareMeta metaShareFresh))
  | .shareIdToName 8 => (4, some (.nameIdent ⟨"A", "s2"⟩))
  | .dbNameIdent "A" "db" => (8, some (.u64 1))
  | .databaseId 1 => (9, some (.dbMeta { shared_by := [] }))
  | .dbIdTableName 1 "t" => (13, some (.u64 2))
  | .tableId 2 => (14, some .tableMeta)
  | _ => (0, none)

/-- C2: in `grant_share_object` and `revoke_share_object` (which run the same
check): with `ShareMeta.database = None`, any `Table` object fails
`WrongShareObject` (a `Database` object passes); with
`ShareMeta.database = Some(entry)` holding a `Database(db_id)` object, the
requested object's db id (the id itself for a database, the parent for a
table) must equal `db_id`, else `WrongShareObject`; and a failing check makes
both operations' attempts return that error without committing. -/
theorem check_share_object_spec
    (env : AttemptEnv) (greq : GrantShareObjectReq) (rreq : RevokeShareObjectReq)
    (entry : ShareGrantEntry) (d : Nat)
    (sid : ShareGrantObjectSeqAndId) (n : ShareGrantObjectName) :
    (check_share_object none sid n =
      (match sid with
       | .Table _ _ _ => .error (.WrongShareObject n.toText)
       | .Database _ _ _ => .ok ())) ∧
    (entry.object = .Database d →
      check_share_object (some entry) sid n =
        (if d = sid.dbId then .ok ()
         else .error (.WrongShareObject n.toText))) ∧
    (∀ (a b c : Nat) (m : ShareMeta) (sid2 : ShareGrantObjectSeqAndId)
        (err : AppError),
      get_share_or_err env.st greq.share_name = .ok (a, b, c, m) →
      get_share_object_seq_and_id env.st greq.object greq.share_name.tenant
        = .ok sid2 →
      check_share_object m.database sid2 greq.object = .error err →
      grantShareObjectStep greq env = .early (.error err)) ∧
    (∀ (a b c : Nat) (m : ShareMeta) (sid2 : ShareGrantObjectSeqAndId)
        (err : AppError),
      get_share_or_err env.st rreq.share_name = .ok (a, b, c, m) →
      get_share_object_seq_and_id env.st rreq.object rreq.share_name.tenant
        = .ok sid2 →
      check_share_object m.database sid2 rreq.object = .error err →
      revokeShareObjectStep rreq env = .early (.error err)) := by
  refine ⟨?_, ?_, ?_, ?_⟩
  · cases sid <;> rfl
  · intro h
    obtain ⟨o, p, g⟩ := entry
    simp only at h
    subst h
    unfold check_share_object
    cases sid with
    | Database s i dm =>
        by_cases hd : d = i <;>
          simp [ShareGrantObjectSeqAndId.dbId, hd]
    | Table i s t =>
        by_cases hd : d = i <;>
          simp [ShareGrantObjectSeqAndId.dbId, hd]
  · intro a b c m sid2 err h1 h2 h3
    unfold grantShareObjectStep
    simp only [h1, h2, h3]
  · intro a b c m sid2 err h1 h2 h3
    unfold revokeShareObjectStep
    simp only [h1, h2, h3]

/-- Witness for `check_share_object_spec`: granting or revoking the table
`db.t` on share `s2`, whose meta has no database grant, fails
`WrongShareObject`; the same check with a granted database `1` refuses the
parent db id `9`. -/
theorem check_share_object_spec_witness :
    check_share_object none (.Table 1 14 2) (.Table "db" "t")
      = .error (.WrongShareObject "db.t") ∧
    check_share_object (some { object := .Database 1, privileges := 3, grant_on := 11 })
        (.Table 9 14 2) (.Table "db" "t")
      = .error (.WrongShareObject "db.t") ∧
    grantShareObjectStep
        { share_name := ⟨"A", "s2"⟩, object := .Table "db" "t",
          privilege := 1, grant_on := 20 }
        { st := stShareFresh, newId := 0, succ := true }
      = .early (.error (.WrongShareObject "db.t")) ∧
    revokeShareObjectStep
        { share_name := ⟨"A", "s2"⟩, object := .Table "db" "t",
          privilege := 1, update_on := 20 }
        { st := stShareFresh, newId := 0, succ := true }
      = .early (.error (.WrongShareObject "db.t")) := by
  refine ⟨?_, ?_, ?_, ?_⟩
  · exact (check_share_object_spec
      { st := stShareFresh, newId := 0, succ := true }
      { share_name := ⟨"A", "s2"⟩, object := .Table "db" "t",
        privilege := 1, grant_on := 20 }
      { share_name := ⟨"A", "s2"⟩, object := .Table "db" "t",
        privilege := 1, update_on := 20 }
      { object := .Database 1, privileges := 3, grant_on := 11 } 1
      (.Table 1 14 2) (.Table "db" "t")).1
  · exact (check_share_object_spec
      { st := stShareFresh, newId := 0, succ := true }
      { share_name := ⟨"A", "s2"⟩, object := .Table "db" "t",
        privilege := 1, grant_on := 20 }
      { share_name := ⟨"A", "s2"⟩, object := .Table "db" "t",
        privilege := 1, update_on := 20 }
      { object := .Database 1, privileges := 3, grant_on := 11 } 1
      (.Table 9 14 2) (.Table "db" "t")).2.1 rfl
  · exact (check_share_object_spec
      { st := stShareFresh, newId := 0, succ := true }
      { share_name := ⟨"A", "s2"⟩, object := .Table "db" "t",
        privilege := 1, grant_on := 20 }
      { share_name := ⟨"A", "s2"⟩, object := .Table "db" "t",
        privilege := 1, update_on := 20 }
      { object := .Database 1, privileges := 3, grant_on := 11 } 1
      (.Table 1 14 2) (.Table "db" "t")).2.2.1
      3 8 5 metaShareFresh (.Table 1 14 2) (.WrongShareObject "db.t")
      rfl rfl rfl
  · exact (check_share_object_spec
      { st := stShareFresh, newId := 0, succ := true }
      { share_name := ⟨"A", "s2"⟩, object := .Table "db" "t",
        privilege := 1, grant_on := 20 }
      { share_name := ⟨"A", "s2"⟩, object := .Table "db" "t",
        privilege := 1, update_on := 20 }
      { object := .Database 1, privileges := 3, grant_on := 11 } 1
      (.Table 1 14 2) (.Table "db" "t")).2.2.2
      3 8 5 metaShareFresh (.Table 1 14 2) (.WrongShareObject "db.t")
      rfl rfl rfl

/-- C8: granting a database adds a `DbMeta` put (with `share_id` inserted
into `shared_by`) only when `share_id` is not already a member — in
particular the commit transaction contains no `DatabaseId` put when it is —
whereas revoking a database always adds the `DbMeta` put (with `share_id`
removed from `shared_by`), whether or not the set changes. -/
theorem db_meta_put_asymmetry
    (env : AttemptEnv) (greq : GrantShareObjectReq) (rreq : RevokeShareObjectReq) :
    (∀ (share_id seq db_id : Nat) (db_meta : DatabaseMeta),
       db_meta.shared_by.contains share_id = true →
       add_grant_object_txn_if_then share_id (.Database seq db_id db_meta) = []) ∧
    (∀ (share_id seq db_id : Nat) (db_meta : DatabaseMeta),
       db_meta.shared_by.contains share_id = false →
       add_grant_object_txn_if_then share_id (.Database seq db_id db_meta)
         = [txn_op_put (.databaseId db_id)
              (.dbMeta (db_meta.insertSharedBy share_id))]) ∧
    (∀ (a share_id c ds db_id : Nat) (m : ShareMeta) (db_meta : DatabaseMeta),
       get_share_or_err env.st greq.share_name = .ok (a, share_id, c, m) →
       get_share_object_seq_and_id env.st greq.object greq.share_name.tenant
         = .ok (.Database ds db_id db_meta) →
       check_share_object m.database (.Database ds db_id db_meta) greq.object
         = .ok () →
       m.has_granted_privileges greq.object (.Database ds db_id db_meta)
         greq.privilege = .ok false →
       db_meta.shared_by.contains share_id = true →
       ∀ (txn : TxnRequest) (r : GrantShareObjectReply),
         grantShareObjectStep greq env = .commit txn r →
         ∀ v, txn_op_put (.databaseId db_id) v ∉ txn.if_then) ∧
    (∀ (a share_id c ds db_id : Nat) (m m2 : ShareMeta) (db_meta : DatabaseMeta),
       get_share_or_err env.st rreq.share_name = .ok (a, share_id, c, m) →
       get_share_object_seq_and_id env.st rreq.object rreq.share_name.tenant
         = .ok (.Database ds db_id db_meta) →
       check_share_object m.database (.Database ds db_id db_meta) rreq.object
         = .ok () →
       m.has_granted_privileges rreq.object (.Database ds db_id db_meta)
         rreq.privilege = .ok true →
       m.revoke_object_privileges (.Database db_id) rreq.privilege rreq.update_on
         = .ok m2 →
       ∀ (txn : TxnRequest) (r : RevokeShareObjectReply),
         revokeShareObjectStep rreq env = .commit txn r →
         txn_op_put (.databaseId db_id) (.dbMeta (db_meta.removeSharedBy share_id))
           ∈ txn.if_then) := by
  refine ⟨?_, ?_, ?_, ?_⟩
  · intro share_id seq db_id db_meta h
    have hm : share_id ∈ db_meta.shared_by := by simpa using h
    simp [add_grant_object_txn_if_then, hm]
  · intro share_id seq db_id db_meta h
    have hm : share_id ∉ db_meta.shared_by := by simpa using h
    simp [add_grant_object_txn_if_then, hm]
  · intro a share_id c ds db_id m db_meta h1 h2 h3 h4 h5 txn r htxn v
    unfold grantShareObjectStep at htxn
    simp only [h1, h2, h3, h4] at htxn
    rw [StepResult.commit.injEq] at htxn
    obtain ⟨htxn, -⟩ := htxn
    subst htxn
    simp only [List.mem_append, List.mem_cons, List.not_mem_nil]
    rintro (⟨h | h | h⟩ | h)
    · exact TxnOp.noConfusion h (fun hk _ => Key.noConfusion hk)
    · exact TxnOp.noConfusion h (fun hk _ => Key.noConfusion hk)
    · exact h
    · have hm : share_id ∈ db_meta.shared_by := by simpa using h5
      simp [add_grant_object_txn_if_then, hm] at h
  · intro a share_id c ds db_id m m2 db_meta h1 h2 h3 h4 h5 txn r htxn
    unfold revokeShareObjectStep at htxn
    simp only [h1, h2, h3, h4] at htxn
    rw [show ShareGrantObject.new (.Database ds db_id db_meta)
          = .Database db_id from rfl] at htxn
    rw [h5] at htxn
    simp only at htxn
    rw [StepResult.commit.injEq] at htxn
    obtain ⟨htxn, -⟩ := htxn
    subst htxn
    simp

/-- The already-shared grant transaction of the witness below. -/
def txnGrantSharedC8 : TxnRequest :=
  { condition := [txn_cond_seq (.shareName ⟨"A", "s1"⟩) 3,
                  txn_cond_seq (.shareId 7) 5,
                  txn_cond_seq (.objectSharedBy (.Database 1)) 0,
                  txn_cond_seq (.databaseId 1) 9]
    if_then := [txn_op_put (.shareId 7)
                  (.shareMeta { database :=
                                  some { object := .Database 1, privileges := 4, grant_on := 20 }
                                entries := []
                                accounts := ["B"]
                                comment := none
                                share_on := 10
                                update_on := 10 }),
                txn_op_put (.objectSharedBy (.Database 1)) (.shareIds { share_ids := [7] })] }

/-- The database-revoke transaction of the witness below. -/
def txnRevokeDbC8 : TxnRequest :=
  { condition := [txn_cond_seq (.shareName ⟨"A", "s1"⟩) 3,
                  txn_cond_seq (.shareId 7) 5,
                  txn_cond_seq (.objectSharedBy (.Database 1)) 0,
                  txn_cond_seq (.databaseId 1) 9]
    if_then := [txn_op_put (.shareId 7)
                  (.shareMeta { database :=
                                  some { object := .Database 1, privileges := 2, grant_on := 11 }
                                entries := []
                                accounts := ["B"]
                                comment := none
                                share_on := 10
                                update_on := 21 }),
                txn_op_put (.objectSharedBy (.Database 1)) (.shareIds { share_ids := [] }),
                txn_op_put (.databaseId 1) (.dbMeta { shared_by := [] })] }

/-- Witness for `db_meta_put_asymmetry` on share 7 (`A.s1`, database 1 shared
by 7): granting more privileges adds no `DatabaseId` put since 7 is already
in `shared_by`; revoking privilege 1 puts the `DbMeta` with 7 removed. -/
theorem db_meta_put_asymmetry_witness :
    add_grant_object_txn_if_then 7 (.Database 9 1 { shared_by := [7] }) = [] ∧
    add_grant_object_txn_if_then 7 (.Database 9 1 { shared_by := [] })
      = [txn_op_put (.databaseId 1) (.dbMeta { shared_by := [7] })] ∧
    txn_op_put (.databaseId 1) (.dbMeta { shared_by := [7] })
      ∉ txnGrantSharedC8.if_then ∧
    txn_op_put (.databaseId 1) (.dbMeta { shared_by := [] })
      ∈ txnRevokeDbC8.if_then := by
  have h := db_meta_put_asymmetry
    { st := stShareDb, newId := 0, succ := true }
    { share_name := ⟨"A", "s1"⟩, object := .Database "db",
      privilege := 4, grant_on := 20 }
    { share_name := ⟨"A", "s1"⟩, object := .Database "db",
      privilege := 1, update_on := 21 }
  refine ⟨h.1 7 9 1 { shared_by := [7] } rfl,
          h.2.1 7 9 1 { shared_by := [] } rfl,
          h.2.2.1 3 7 5 9 1 metaShareDb { shared_by := [7] }
            rfl rfl rfl rfl rfl txnGrantSharedC8 {} rfl
            (.dbMeta { shared_by := [7] }),
          h.2.2.2 3 7 5 9 1 metaShareDb
            { database := some { object := .Database 1, privileges := 2, grant_on := 11 }
              entries := []
              accounts := ["B"]
              comment := none
              share_on := 10
              update_on := 21 }
            { shared_by := [7] }
            rfl rfl rfl rfl rfl txnRevokeDbC8 {} rfl⟩

/-- C1 (amended): when the name lookup finds the share name absent, the
commit transaction atomically inserts the three records (name → share id,
share id → meta, id-to-name → name), conditioned on sequence number 0 for
the `ShareNameIdent` and `ShareIdToName` keys only; the inserted `ShareId`
key carries no condition. -/
theorem create_share_commit_pins_name_and_reverse_only
    (req : CreateShareReq) (env : AttemptEnv)
    (h : (get_u64_value env.st (.shareName req.share_name)).1 = 0) :
    ∃ txn, createShareStep req env = .commit txn { share_id := env.newId } ∧
      txn.condition = [txn_cond_seq (.shareName req.share_name) 0,
                       txn_cond_seq (.shareIdToName env.newId) 0] ∧
      txn.if_then = [txn_op_put (.shareName req.share_name) (.u64 env.newId),
                     txn_op_put (.shareId env.newId)
                       (.shareMeta (ShareMeta.new req.create_on req.comment)),
                     txn_op_put (.shareIdToName env.newId) (.nameIdent req.share_name)] ∧
      ∀ c ∈ txn.condition, c.key ≠ Key.shareId env.newId := by
  refine ⟨{ condition := [txn_cond_seq (.shareName req.share_name) 0,
                          txn_cond_seq (.shareIdToName env.newId) 0]
            if_then := [txn_op_put (.shareName req.share_name) (.u64 env.newId),
                        txn_op_put (.shareId env.newId)
                          (.shareMeta (ShareMeta.new req.create_on req.comment)),
                        txn_op_put (.shareIdToName env.newId)
                          (.nameIdent req.share_name)] }, ?_, rfl, rfl, ?_⟩
  · unfold createShareStep
    simp only [h]
    rfl
  · intro c hc
    simp only [List.mem_cons, List.not_mem_nil, or_false] at hc
    rcases hc with hc | hc <;> subst hc <;>
      exact fun hk => Key.noConfusion hk

/-- The `create_share` request of the two concrete theorems below. -/
def reqCreateC1 : CreateShareReq :=
  { if_not_exists := false, share_name := ⟨"A", "s1"⟩, comment := none, create_on := 1 }

/-- The transaction `create_share` commits for `reqCreateC1` on an empty
store with fresh id 5. -/
def txnCreateC1 : TxnRequest :=
  { condition := [txn_cond_seq (.shareName ⟨"A", "s1"⟩) 0,
                  txn_cond_seq (.shareIdToName 5) 0]
    if_then := [txn_op_put (.shareName ⟨"A", "s1"⟩) (.u64 5),
                txn_op_put (.shareId 5) (.shareMeta (ShareMeta.new 1 none)),
                txn_op_put (.shareIdToName 5) (.nameIdent ⟨"A", "s1"⟩)] }

/-- Witness for `create_share_commit_pins_name_and_reverse_only` on the empty
store with fresh id 5. -/
theorem create_share_commit_pins_witness :
    (get_u64_value stEmpty (.shareName ⟨"A", "s1"⟩)).1 = 0 ∧
    ∃ txn, createShareStep reqCreateC1 { st := stEmpty, newId := 5, succ := true }
        = .commit txn { share_id := 5 } ∧
      txn.condition = [txn_cond_seq (.shareName ⟨"A", "s1"⟩) 0,
                       txn_cond_seq (.shareIdToName 5) 0] ∧
      txn.if_then = [txn_op_put (.shareName ⟨"A", "s1"⟩) (.u64 5),
                     txn_op_put (.shareId 5) (.shareMeta (ShareMeta.new 1 none)),
                     txn_op_put (.shareIdToName 5) (.nameIdent ⟨"A", "s1"⟩)] ∧
      ∀ c ∈ txn.condition, c.key ≠ Key.shareId 5 :=
  ⟨rfl, create_share_commit_pins_name_and_reverse_only reqCreateC1
    { st := stEmpty, newId := 5, succ := true } rfl⟩

/-- Counterexample to C1 as stated: on the empty store, `create_share` of
`A.s1` (fresh id 5) commits a transaction that inserts the `ShareId` record
yet whose conditions mention no `ShareId` key at all — the inserted
`ShareId 5` is not conditioned on its sequence number being 0. -/
theorem create_share_all_three_pinned_refuted :
    createShareStep reqCreateC1 { st := stEmpty, newId := 5, succ := true }
      = .commit txnCreateC1 { share_id := 5 } ∧
    txn_op_put (.shareId 5) (.shareMeta (ShareMeta.new 1 none))
      ∈ txnCreateC1.if_then ∧
    ¬ ∃ c ∈ txnCreateC1.condition, c.key = Key.shareId 5 :=
  ⟨rfl, by decide, by decide⟩

/-- C4 (amended): the commit transaction of `remove_share_tenants` pins the
share-meta seq and each to-be-removed account record's seq — and nothing
else: in particular the forward name key's seq, though read during the
attempt, is not among the conditions. -/
theorem remove_share_tenants_pins_meta_and_accounts_only
    (req : RemoveShareAccountsReq) (env : AttemptEnv)
    (a share_id share_meta_seq : Nat) (m : ShareMeta)
    (pairs : List (ShareAccountNameIdent × Nat))
    (h1 : get_share_or_err env.st req.share_name = .ok (a, share_id, share_meta_seq, m))
    (h2 : collectRemoveAccounts env.st req.share_name.tenant share_id m req.accounts
            = .ok pairs)
    (h3 : pairs ≠ []) :
    ∃ txn, removeShareTenantsStep req env = .commit txn {} ∧
      txn.condition = txn_cond_seq (.shareId share_id) share_meta_seq
        :: pairs.map (fun p => txn_cond_seq (.shareAccount p.1) p.2) ∧
      ∀ cond ∈ txn.condition, ∀ ident, cond.key ≠ Key.shareName ident := by
  have hne : pairs.isEmpty = false := by
    cases pairs with
    | nil => exact absurd rfl h3
    | cons x xs => rfl
  refine ⟨{ condition := txn_cond_seq (.shareId share_id) share_meta_seq
              :: pairs.map (fun p => txn_cond_seq (.shareAccount p.1) p.2)
            if_then := pairs.map (fun p => txn_op_del (.shareAccount p.1))
              ++ [txn_op_put (.shareId share_id)
                    (.shareMeta (pairs.foldl (fun m p => m.del_account p.1.account) m))] },
          ?_, rfl, ?_⟩
  · unfold removeShareTenantsStep
    simp only [h1, h2, hne]
    rfl
  · intro cond hc ident
    simp only [List.mem_cons] at hc
    rcases hc with hc | hc
    · subst hc
      exact fun hk => Key.noConfusion hk
    · obtain ⟨p, -, hp⟩ := List.mem_map.mp hc
      subst hp
      exact fun hk => Key.noConfusion hk

/-- The `remove_share_tenants` request of the concrete theorems below. -/
def reqRemoveC4 : RemoveShareAccountsReq :=
  { if_exists := false, share_name := ⟨"A", "s1"⟩, accounts := ["B"] }

/-- The transaction `remove_share_tenants` commits for `reqRemoveC4` on
`stShareDb`. -/
def txnRemoveC4 : TxnRequest :=
  { condition := [txn_cond_seq (.shareId 7) 5,
                  txn_cond_seq (.shareAccount ⟨"B", 7⟩) 6]
    if_then := [txn_op_del (.shareAccount ⟨"B", 7⟩),
                txn_op_put (.shareId 7)
                  (.shareMeta { database :=
                                  some { object := .Database 1, privileges := 3, grant_on := 11 }
                                entries := []
                                accounts := []
                                comment := none
                                share_on := 10
                                update_on := 10 })] }

/-- Witness for `remove_share_tenants_pins_meta_and_accounts_only`: removing
account `B` from share `A.s1` commits with conditions on the meta and the
account record only. -/
theorem remove_share_tenants_pins_witness :
    get_share_or_err stShareDb ⟨"A", "s1"⟩ = .ok (3, 7, 5, metaShareDb) ∧
    collectRemoveAccounts stShareDb "A" 7 metaShareDb ["B"]
      = .ok [(⟨"B", 7⟩, 6)] ∧
    ∃ txn, removeShareTenantsStep reqRemoveC4
        { st := stShareDb, newId := 0, succ := true } = .commit txn {} ∧
      txn.condition = txn_cond_seq (.shareId 7) 5
        :: [(⟨"B", 7⟩, 6)].map
             (fun p : ShareAccountNameIdent × Nat => txn_cond_seq (.shareAccount p.1) p.2) ∧
      ∀ cond ∈ txn.condition, ∀ ident, cond.key ≠ Key.shareName ident :=
  ⟨rfl, rfl,
   remove_share_tenants_pins_meta_and_accounts_only reqRemoveC4
     { st := stShareDb, newId := 0, succ := true } 3 7 5 metaShareDb
     [(⟨"B", 7⟩, 6)] rfl rfl (by simp)⟩

/-- Counterexample to C4 as stated: removing account `B` from share `A.s1`
reads the forward name key at seq 3, yet the commit transaction's conditions
contain no condition on that key. -/
theorem remove_share_tenants_pins_name_refuted :
    (get_u64_value stShareDb (.shareName ⟨"A", "s1"⟩)).1 = 3 ∧
    removeShareTenantsStep reqRemoveC4 { st := stShareDb, newId := 0, succ := true }
      = .commit txnRemoveC4 {} ∧
    ¬ ∃ c ∈ txnRemoveC4.condition, c.key = Key.shareName ⟨"A", "s1"⟩ :=
  ⟨rfl, rfl, by decide⟩

/-- Membership in the found-account list of `drop_share`: exactly the listed
accounts whose record read succeeds, paired with the record's seq. -/
theorem mem_dropShareFoundAccounts (σ : KVState) (share_id : Nat)
    (accounts : List String) (ident : ShareAccountNameIdent) (seq : Nat) :
    (ident, seq) ∈ dropShareFoundAccounts σ share_id accounts ↔
      ∃ b ∈ accounts, ∃ mm,
        get_share_account_meta_or_err σ { account := b, share_id := share_id }
          = .ok (seq, mm) ∧
        ident = { account := b, share_id := share_id } := by
  unfold dropShareFoundAccounts
  rw [List.mem_filterMap]
  constructor
  · rintro ⟨b, hb, hf⟩
    cases hga : get_share_account_meta_or_err σ { account := b, share_id := share_id } with
    | error e => rw [hga] at hf; cases hf
    | ok x =>
        obtain ⟨s, mm⟩ := x
        rw [hga] at hf
        simp only [Option.some.injEq, Prod.mk.injEq] at hf
        obtain ⟨hi, hs⟩ := hf
        subst hs
        exact ⟨b, hb, mm, hga, hi.symm⟩
  · rintro ⟨b, hb, mm, hok, hi⟩
    subst hi
    exact ⟨b, hb, by rw [hok]⟩

/-- C10: `drop_share` succeeds even when an account listed in
`ShareMeta.accounts` has no `ShareAccountNameIdent` record: the missing
account is silently skipped — its key is neither pinned in the conditions nor
deleted — and the transaction deletes only the three share records plus the
account records actually found. -/
theorem drop_share_skips_missing_account_records
    (req : DropShareReq) (envs : Nat → AttemptEnv) (env : AttemptEnv)
    (a share_id share_meta_seq share_name_seq : Nat) (m : ShareMeta)
    (nm : ShareNameIdent) (acct : String) (err : AppError)
    (henv : envs 0 = env)
    (h1 : get_share_or_err env.st req.share_name
            = .ok (a, share_id, share_meta_seq, m))
    (h2 : get_share_id_to_name_or_err env.st share_id = .ok (share_name_seq, nm))
    (h3 : acct ∈ m.get_accounts)
    (h4 : get_share_account_meta_or_err env.st { account := acct, share_id := share_id }
            = .error err)
    (hsucc : env.succ = true) :
    drop_share req envs = .ok {} ∧
    ∃ txn, dropShareStep req env = .commit txn {} ∧
      (∀ c ∈ txn.condition, c.key ≠ Key.shareAccount { account := acct, share_id := share_id }) ∧
      txn_op_del (Key.shareAccount { account := acct, share_id := share_id })
        ∉ txn.if_then ∧
      txn_op_del (.shareName req.share_name) ∈ txn.if_then ∧
      txn_op_del (.shareId share_id) ∈ txn.if_then ∧
      txn_op_del (.shareIdToName share_id) ∈ txn.if_then ∧
      (∀ (b : String) (seq : Nat) (mm : ShareAccountMeta), b ∈ m.get_accounts →
        get_share_account_meta_or_err env.st { account := b, share_id := share_id }
          = .ok (seq, mm) →
        txn_op_del (Key.shareAccount { account := b, share_id := share_id })
          ∈ txn.if_then ∧
        txn_cond_seq (Key.shareAccount { account := b, share_id := share_id }) seq
          ∈ txn.condition) ∧
      (∀ op ∈ txn.if_then,
        op = txn_op_del (.shareName req.share_name) ∨
        op = txn_op_del (.shareId share_id) ∨
        op = txn_op_del (.shareIdToName share_id) ∨
        ∃ p ∈ dropShareFoundAccounts env.st share_id m.get_accounts,
          op = txn_op_del (.shareAccount p.1)) := by
  have hstep : dropShareStep req env = .commit
      { condition := [txn_cond_seq (.shareName req.share_name) a,
                      txn_cond_seq (.shareId share_id) share_meta_seq,
                      txn_cond_seq (.shareIdToName share_id) share_name_seq]
                     ++ (dropShareFoundAccounts env.st share_id m.get_accounts).map
                          (fun p => txn_cond_seq (.shareAccount p.1) p.2)
        if_then := [txn_op_del (.shareName req.share_name),
                    txn_op_del (.shareId share_id),
                    txn_op_del (.shareIdToName share_id)]
                   ++ (dropShareFoundAccounts env.st share_id m.get_accounts).map
                        (fun p => txn_op_del (.shareAccount p.1)) }
      DropShareReply.mk := by
    unfold dropShareStep
    simp only [h1, h2]
  refine ⟨?_, _, hstep, ?_, ?_, ?_, ?_, ?_, ?_, ?_⟩
  · unfold drop_share
    exact runRetry_commit_succ _ _ 9 envs _ DropShareReply.mk
      (by rw [henv]; exact hstep) (by rw [henv]; exact hsucc)
  · intro c hc
    simp only [List.mem_append, List.mem_cons, List.not_mem_nil, or_false] at hc
    rcases hc with (hc | hc | hc) | hc
    · subst hc; exact fun hk => Key.noConfusion hk
    · subst hc; exact fun hk => Key.noConfusion hk
    · subst hc; exact fun hk => Key.noConfusion hk
    · obtain ⟨p, hp, hpc⟩ := List.mem_map.mp hc
      subst hpc
      intro hk
      have hkey : p.1 = { account := acct, share_id := share_id } :=
        Key.shareAccount.inj hk
      obtain ⟨b, -, mm, hok, hi⟩ :=
        (mem_dropShareFoundAccounts env.st share_id m.get_accounts p.1 p.2).mp
          (by simpa using hp)
      rw [hkey] at hi
      injection hi with hb hs
      rw [hb] at h4
      rw [hok] at h4
      exact Except.noConfusion h4
  · intro hmem
    simp only [List.mem_append, List.mem_cons, List.not_mem_nil, or_false] at hmem
    rcases hmem with (hc | hc | hc) | hc
    · exact Key.noConfusion (TxnOp.del.inj hc)
    · exact Key.noConfusion (TxnOp.del.inj hc)
    · exact Key.noConfusion (TxnOp.del.inj hc)
    · obtain ⟨p, hp, hpc⟩ := List.mem_map.mp hc
      have hkey : p.1 = { account := acct, share_id := share_id } :=
        Key.shareAccount.inj (TxnOp.del.inj hpc)
      obtain ⟨b, -, mm, hok, hi⟩ :=
        (mem_dropShareFoundAccounts env.st share_id m.get_accounts p.1 p.2).mp
          (by simpa using hp)
      rw [hkey] at hi
      injection hi with hb hs
      rw [hb] at h4
      rw [hok] at h4
      exact Except.noConfusion h4
  · simp
  · simp
  · simp
  · intro b seq mm hb hok
    have hp : (({ account := b, share_id := share_id } : ShareAccountNameIdent), seq)
        ∈ dropShareFoundAccounts env.st share_id m.get_accounts :=
      (mem_dropShareFoundAccounts env.st share_id m.get_accounts _ seq).mpr
        ⟨b, hb, mm, hok, rfl⟩
    constructor
    · simp only [List.mem_append, List.mem_cons, List.not_mem_nil, or_false]
      exact Or.inr (List.mem_map.mpr ⟨_, hp, rfl⟩)
    · simp only [List.mem_append, List.mem_cons, List.not_mem_nil, or_false]
      exact Or.inr (List.mem_map.mpr ⟨_, hp, rfl⟩)
  · intro op hop
    simp only [List.mem_append, List.mem_cons, List.not_mem_nil, or_false] at hop
    rcases hop with (hc | hc | hc) | hc
    · exact Or.inl hc
    · exact Or.inr (Or.inl hc)
    · exact Or.inr (Or.inr (Or.inl hc))
    · obtain ⟨p, hp, hpc⟩ := List.mem_map.mp hc
      exact Or.inr (Or.inr (Or.inr ⟨p, hp, hpc.symm⟩))

/-- A `ShareMeta` listing accounts `B` and `C`. -/
def metaShareTwoAccts : ShareMeta :=
  { database := none
    entries := []
    accounts := ["B", "C"]
    comment := none
    share_on := 10
    update_on := 10 }

/-- KV state with tenant `A`'s share `s3` (id 9) listing accounts `B` and
`C`, but holding a `ShareAccountNameIdent` record only for `B` — the record
for `C` is missing (an inconsistent state). -/
def stShareMissingAcct : KVState := fun k =>
  match k with
  | .shareName ⟨"A", "s3"⟩ => (3, some (.u64 9))
  | .shareId 9 => (5, some (.shareMeta metaShareTwoAccts))
  | .shareIdToName 9 => (4, some (.nameIdent ⟨"A", "s3"⟩))
  | .shareAccount ⟨"B", 9⟩ => (6, some (.accountMeta (ShareAccountMeta.new "B" 9 12)))
  | _ => (0, none)

/-- Witness for `drop_share_skips_missing_account_records`: dropping `A.s3`
— whose listed account `C` has no record — succeeds, skipping `C` and
deleting the three share records plus `B`'s record only. -/
theorem drop_share_skips_missing_witness :
    "C" ∈ metaShareTwoAccts.get_accounts ∧
    get_share_account_meta_or_err stShareMissingAcct { account := "C", share_id := 9 }
      = .error (.UnknownShareAccounts ["C"] 9) ∧
    (drop_share { if_exists := false, share_name := ⟨"A", "s3"⟩ }
        (fun _ => { st := stShareMissingAcct, newId := 0, succ := true }) = .ok {} ∧
     ∃ txn, dropShareStep { if_exists := false, share_name := ⟨"A", "s3"⟩ }
         { st := stShareMissingAcct, newId := 0, succ := true } = .commit txn {} ∧
       (∀ c ∈ txn.condition, c.key ≠ Key.shareAccount { account := "C", share_id := 9 }) ∧
       txn_op_del (Key.shareAccount { account := "C", share_id := 9 }) ∉ txn.if_then ∧
       txn_op_del (.shareName ⟨"A", "s3"⟩) ∈ txn.if_then ∧
       txn_op_del (.shareId 9) ∈ txn.if_then ∧
       txn_op_del (.shareIdToName 9) ∈ txn.if_then ∧
       (∀ (b : String) (seq : Nat) (mm : ShareAccountMeta),
         b ∈ metaShareTwoAccts.get_accounts →
         get_share_account_meta_or_err stShareMissingAcct { account := b, share_id := 9 }
           = .ok (seq, mm) →
         txn_op_del (Key.shareAccount { account := b, share_id := 9 }) ∈ txn.if_then ∧
         txn_cond_seq (Key.shareAccount { account := b, share_id := 9 }) seq
           ∈ txn.condition) ∧
       (∀ op ∈ txn.if_then,
         op = txn_op_del (.shareName ⟨"A", "s3"⟩) ∨
         op = txn_op_del (.shareId 9) ∨
         op = txn_op_del (.shareIdToName 9) ∨
         ∃ p ∈ dropShareFoundAccounts stShareMissingAcct 9 metaShareTwoAccts.get_accounts,
           op = txn_op_del (.shareAccount p.1))) :=
  ⟨by decide, rfl,
   drop_share_skips_missing_account_records
     { if_exists := false, share_name := ⟨"A", "s3"⟩ }
     (fun _ => { st := stShareMissingAcct, newId := 0, succ := true })
     { st := stShareMissingAcct, newId := 0, succ := true }
     3 9 5 4 metaShareTwoAccts ⟨"A", "s3"⟩ "C" (.UnknownShareAccounts ["C"] 9)
     rfl rfl rfl (by decide) rfl rfl⟩

/-- C3: `grant_share_object` on an (object, privileges) pair already fully
granted, and `revoke_share_object` on a pair not granted, both return success
without submitting any transaction, leaving the KV state unchanged. -/
theorem grant_revoke_idempotent_noop :
    (∀ (greq : GrantShareObjectReq) (envs : Nat → AttemptEnv) (a b c : Nat)
        (m : ShareMeta) (sid : ShareGrantObjectSeqAndId),
      get_share_or_err (envs 0).st greq.share_name = .ok (a, b, c, m) →
      get_share_object_seq_and_id (envs 0).st greq.object greq.share_name.tenant
        = .ok sid →
      check_share_object m.database sid greq.object = .ok () →
      m.has_granted_privileges greq.object sid greq.privilege = .ok true →
      grant_share_object greq envs = .ok {} ∧
      submittedTxns (grantShareObjectStep greq) TXN_MAX_RETRY_TIMES envs = [] ∧
      applyTxns (envs 0).st
        (submittedTxns (grantShareObjectStep greq) TXN_MAX_RETRY_TIMES envs)
        = (envs 0).st) ∧
    (∀ (rreq : RevokeShareObjectReq) (envs : Nat → AttemptEnv) (a b c : Nat)
        (m : ShareMeta) (sid : ShareGrantObjectSeqAndId),
      get_share_or_err (envs 0).st rreq.share_name = .ok (a, b, c, m) →
      get_share_object_seq_and_id (envs 0).st rreq.object rreq.share_name.tenant
        = .ok sid →
      check_share_object m.database sid rreq.object = .ok () →
      m.has_granted_privileges rreq.object sid rreq.privilege = .ok false →
      revoke_share_object rreq envs = .ok {} ∧
      submittedTxns (revokeShareObjectStep rreq) TXN_MAX_RETRY_TIMES envs = [] ∧
      applyTxns (envs 0).st
        (submittedTxns (revokeShareObjectStep rreq) TXN_MAX_RETRY_TIMES envs)
        = (envs 0).st) := by
  constructor
  · intro greq envs a b c m sid h1 h2 h3 h4
    have hstep : grantShareObjectStep greq (envs 0) = .early (.ok {}) := by
      unfold grantShareObjectStep
      simp only [h1, h2, h3, h4]
    have htxns : submittedTxns (grantShareObjectStep greq) TXN_MAX_RETRY_TIMES envs
        = [] := submittedTxns_early _ 9 envs _ hstep
    refine ⟨?_, htxns, ?_⟩
    · unfold grant_share_object
      exact runRetry_early _ _ 9 envs _ hstep
    · rw [htxns]; rfl
  · intro rreq envs a b c m sid h1 h2 h3 h4
    have hstep : revokeShareObjectStep rreq (envs 0) = .early (.ok {}) := by
      unfold revokeShareObjectStep
      simp only [h1, h2, h3, h4]
    have htxns : submittedTxns (revokeShareObjectStep rreq) TXN_MAX_RETRY_TIMES envs
        = [] := submittedTxns_early _ 9 envs _ hstep
    refine ⟨?_, htxns, ?_⟩
    · unfold revoke_share_object
      exact runRetry_early _ _ 9 envs _ hstep
    · rw [htxns]; rfl

/-- Witness for `grant_revoke_idempotent_noop` on share `A.s1` (database 1
granted with bits `3`): granting bit `1` again and revoking the ungranted
bit `4` both succeed with no transaction and an unchanged store. -/
theorem grant_revoke_idempotent_noop_witness :
    metaShareDb.has_granted_privileges (.Database "db") (.Database 9 1 { shared_by := [7] }) 1
      = .ok true ∧
    metaShareDb.has_granted_privileges (.Database "db") (.Database 9 1 { shared_by := [7] }) 4
      = .ok false ∧
    (grant_share_object
        { share_name := ⟨"A", "s1"⟩, object := .Database "db", privilege := 1, grant_on := 20 }
        (fun _ => { st := stShareDb, newId := 0, succ := true }) = .ok {} ∧
     submittedTxns (grantShareObjectStep
        { share_name := ⟨"A", "s1"⟩, object := .Database "db", privilege := 1, grant_on := 20 })
        TXN_MAX_RETRY_TIMES (fun _ => { st := stShareDb, newId := 0, succ := true }) = [] ∧
     applyTxns stShareDb
       (submittedTxns (grantShareObjectStep
          { share_name := ⟨"A", "s1"⟩, object := .Database "db", privilege := 1, grant_on := 20 })
          TXN_MAX_RETRY_TIMES (fun _ => { st := stShareDb, newId := 0, succ := true }))
       = stShareDb) ∧
    (revoke_share_object
        { share_name := ⟨"A", "s1"⟩, object := .Database "db", privilege := 4, update_on := 21 }
        (fun _ => { st := stShareDb, newId := 0, succ := true }) = .ok {} ∧
     submittedTxns (revokeShareObjectStep
        { share_name := ⟨"A", "s1"⟩, object := .Database "db", privilege := 4, update_on := 21 })
        TXN_MAX_RETRY_TIMES (fun _ => { st := stShareDb, newId := 0, succ := true }) = [] ∧
     applyTxns stShareDb
       (submittedTxns (revokeShareObjectStep
          { share_name := ⟨"A", "s1"⟩, object := .Database "db", privilege := 4, update_on := 21 })
          TXN_MAX_RETRY_TIMES (fun _ => { st := stShareDb, newId := 0, succ := true }))
       = stShareDb) :=
  ⟨rfl, rfl,
   grant_revoke_idempotent_noop.1
     { share_name := ⟨"A", "s1"⟩, object := .Database "db", privilege := 1, grant_on := 20 }
     (fun _ => { st := stShareDb, newId := 0, succ := true })
     3 7 5 metaShareDb (.Database 9 1 { shared_by := [7] }) rfl rfl rfl rfl,
   grant_revoke_idempotent_noop.2
     { share_name := ⟨"A", "s1"⟩, object := .Database "db", privilege := 4, update_on := 21 }
     (fun _ => { st := stShareDb, newId := 0, succ := true })
     3 7 5 metaShareDb (.Database 9 1 { shared_by := [7] }) rfl rfl rfl rfl⟩

/-- C7: when the share lookup fails (`UnknownShare` — or, for `create_share`,
the name already exists) and the request's `if_exists` / `if_not_exists`
flag is set, the operation returns a success reply (the empty reply, or for
`create_share` the existing share id) instead of the error; with the flag
unset, the lookup error is returned to the caller. -/
theorem if_exists_suppression :
    (∀ (req : CreateShareReq) (envs : Nat → AttemptEnv),
      (get_u64_value (envs 0).st (.shareName req.share_name)).1 > 0 →
      create_share req envs =
        (if req.if_not_exists
         then .ok { share_id := (get_u64_value (envs 0).st (.shareName req.share_name)).2 }
         else .error (.ShareAlreadyExists req.share_name.share_name))) ∧
    (∀ (req : DropShareReq) (envs : Nat → AttemptEnv) (n : String),
      get_share_or_err (envs 0).st req.share_name = .error (.UnknownShare n) →
      drop_share req envs =
        (if req.if_exists then .ok {} else .error (.UnknownShare n))) ∧
    (∀ (req : AddShareAccountsReq) (envs : Nat → AttemptEnv) (n : String),
      get_share_or_err (envs 0).st req.share_name = .error (.UnknownShare n) →
      add_share_tenants req envs =
        (if req.if_exists then .ok {} else .error (.UnknownShare n))) ∧
    (∀ (req : RemoveShareAccountsReq) (envs : Nat → AttemptEnv) (n : String),
      get_share_or_err (envs 0).st req.share_name = .error (.UnknownShare n) →
      remove_share_tenants req envs =
        (if req.if_exists then .ok {} else .error (.UnknownShare n))) := by
  refine ⟨?_, ?_, ?_, ?_⟩
  · intro req envs h
    have hstep : createShareStep req (envs 0)
        = .early (if req.if_not_exists
                  then .ok { share_id := (get_u64_value (envs 0).st (.shareName req.share_name)).2 }
                  else .error (.ShareAlreadyExists req.share_name.share_name)) := by
      unfold createShareStep
      simp only [h, if_true, if_pos]
    unfold create_share
    exact runRetry_early _ _ 9 envs _ hstep
  · intro req envs n h
    have hstep : dropShareStep req (envs 0)
        = .early (if req.if_exists then .ok {} else .error (.UnknownShare n)) := by
      unfold dropShareStep
      simp only [h]
    unfold drop_share
    exact runRetry_early _ _ 9 envs _ hstep
  · intro req envs n h
    have hstep : addShareTenantsStep req (envs 0)
        = .early (if req.if_exists then .ok {} else .error (.UnknownShare n)) := by
      unfold addShareTenantsStep
      simp only [h]
      rfl
    unfold add_share_tenants
    exact runRetry_early _ _ 9 envs _ hstep
  · intro req envs n h
    have hstep : removeShareTenantsStep req (envs 0)
        = .early (if req.if_exists then .ok {} else .error (.UnknownShare n)) := by
      unfold removeShareTenantsStep
      simp only [h]
      rfl
    unfold remove_share_tenants
    exact runRetry_early _ _ 9 envs _ hstep

/-- Witness for `if_exists_suppression`: creating existing `A.s1` with
`if_not_exists` replies with the existing id 7; dropping and removing
accounts from the unknown share `A.nope` with `if_exists` reply with empty
success; adding accounts to it without the flag surfaces `UnknownShare`. -/
theorem if_exists_suppression_witness :
    (get_u64_value stShareDb (.shareName ⟨"A", "s1"⟩)).1 > 0 ∧
    get_share_or_err stEmpty ⟨"A", "nope"⟩ = .error (.UnknownShare "nope") ∧
    create_share
        { if_not_exists := true, share_name := ⟨"A", "s1"⟩, comment := none, create_on := 1 }
        (fun _ => { st := stShareDb, newId := 0, succ := true })
      = .ok { share_id := 7 } ∧
    drop_share { if_exists := true, share_name := ⟨"A", "nope"⟩ }
        (fun _ => { st := stEmpty, newId := 0, succ := true })
      = .ok {} ∧
    add_share_tenants
        { if_exists := false, share_name := ⟨"A", "nope"⟩, accounts := ["B"], share_on := 2 }
        (fun _ => { st := stEmpty, newId := 0, succ := true })
      = .error (.UnknownShare "nope") ∧
    remove_share_tenants
        { if_exists := true, share_name := ⟨"A", "nope"⟩, accounts := ["B"] }
        (fun _ => { st := stEmpty, newId := 0, succ := true })
      = .ok {} := by
  obtain ⟨hc, hd, ha, hr⟩ := if_exists_suppression
  refine ⟨by decide, rfl, ?_, ?_, ?_, ?_⟩
  · exact hc
      { if_not_exists := true, share_name := ⟨"A", "s1"⟩, comment := none, create_on := 1 }
      (fun _ => { st := stShareDb, newId := 0, succ := true }) (by decide)
  · exact hd { if_exists := true, share_name := ⟨"A", "nope"⟩ }
      (fun _ => { st := stEmpty, newId := 0, succ := true }) "nope" rfl
  · exact ha
      { if_exists := false, share_name := ⟨"A", "nope"⟩, accounts := ["B"], share_on := 2 }
      (fun _ => { st := stEmpty, newId := 0, succ := true }) "nope" rfl
  · exact hr
      { if_exists := true, share_name := ⟨"A", "nope"⟩, accounts := ["B"] }
      (fun _ => { st := stEmpty, newId := 0, succ := true }) "nope" rfl

/-- C6: every mutating operation performs at most `TXN_MAX_RETRY_TIMES`
iterations of its read-validate-commit loop, and when every attempt within
the budget reaches a commit that the KV rejects, it returns the
`TxnRetryMaxTimes` error naming the operation. -/
theorem retry_budget_bounded :
    (∀ (req : CreateShareReq) (envs : Nat → AttemptEnv),
      attemptsUsed (createShareStep req) TXN_MAX_RETRY_TIMES envs ≤ TXN_MAX_RETRY_TIMES ∧
      ((∀ k, k < TXN_MAX_RETRY_TIMES →
          (createShareStep req (envs k)).isCommit = true ∧ (envs k).succ = false) →
        create_share req envs
          = .error (.TxnRetryMaxTimes "create_share" TXN_MAX_RETRY_TIMES))) ∧
    (∀ (req : DropShareReq) (envs : Nat → AttemptEnv),
      attemptsUsed (dropShareStep req) TXN_MAX_RETRY_TIMES envs ≤ TXN_MAX_RETRY_TIMES ∧
      ((∀ k, k < TXN_MAX_RETRY_TIMES →
          (dropShareStep req (envs k)).isCommit = true ∧ (envs k).succ = false) →
        drop_share req envs
          = .error (.TxnRetryMaxTimes "drop_share" TXN_MAX_RETRY_TIMES))) ∧
    (∀ (req : AddShareAccountsReq) (envs : Nat → AttemptEnv),
      attemptsUsed (addShareTenantsStep req) TXN_MAX_RETRY_TIMES envs ≤ TXN_MAX_RETRY_TIMES ∧
      ((∀ k, k < TXN_MAX_RETRY_TIMES →
          (addShareTenantsStep req (envs k)).isCommit = true ∧ (envs k).succ = false) →
        add_share_tenants req envs
          = .error (.TxnRetryMaxTimes "add_share_tenants" TXN_MAX_RETRY_TIMES))) ∧
    (∀ (req : RemoveShareAccountsReq) (envs : Nat → AttemptEnv),
      attemptsUsed (removeShareTenantsStep req) TXN_MAX_RETRY_TIMES envs ≤ TXN_MAX_RETRY_TIMES ∧
      ((∀ k, k < TXN_MAX_RETRY_TIMES →
          (removeShareTenantsStep req (envs k)).isCommit = true ∧ (envs k).succ = false) →
        remove_share_tenants req envs
          = .error (.TxnRetryMaxTimes "remove_share_tenants" TXN_MAX_RETRY_TIMES))) ∧
    (∀ (req : GrantShareObjectReq) (envs : Nat → AttemptEnv),
      attemptsUsed (grantShareObjectStep req) TXN_MAX_RETRY_TIMES envs ≤ TXN_MAX_RETRY_TIMES ∧
      ((∀ k, k < TXN_MAX_RETRY_TIMES →
          (grantShareObjectStep req (envs k)).isCommit = true ∧ (envs k).succ = false) →
        grant_share_object req envs
          = .error (.TxnRetryMaxTimes "grant_share_object" TXN_MAX_RETRY_TIMES))) ∧
    (∀ (req : RevokeShareObjectReq) (envs : Nat → AttemptEnv),
      attemptsUsed (revokeShareObjectStep req) TXN_MAX_RETRY_TIMES envs ≤ TXN_MAX_RETRY_TIMES ∧
      ((∀ k, k < TXN_MAX_RETRY_TIMES →
          (revokeShareObjectStep req (envs k)).isCommit = true ∧ (envs k).succ = false) →
        revoke_share_object req envs
          = .error (.TxnRetryMaxTimes "revoke_share_object" TXN_MAX_RETRY_TIMES))) :=
  ⟨fun req envs => ⟨attemptsUsed_le _ _ _,
     fun h => runRetry_exhaust "create_share" (createShareStep req)
                TXN_MAX_RETRY_TIMES envs h⟩,
   fun req envs => ⟨attemptsUsed_le _ _ _,
     fun h => runRetry_exhaust "drop_share" (dropShareStep req)
                TXN_MAX_RETRY_TIMES envs h⟩,
   fun req envs => ⟨attemptsUsed_le _ _ _,
     fun h => runRetry_exhaust "add_share_tenants" (addShareTenantsStep req)
                TXN_MAX_RETRY_TIMES envs h⟩,
   fun req envs => ⟨attemptsUsed_le _ _ _,
     fun h => runRetry_exhaust "remove_share_tenants" (removeShareTenantsStep req)
                TXN_MAX_RETRY_TIMES envs h⟩,
   fun req envs => ⟨attemptsUsed_le _ _ _,
     fun h => runRetry_exhaust "grant_share_object" (grantShareObjectStep req)
                TXN_MAX_RETRY_TIMES envs h⟩,
   fun req envs => ⟨attemptsUsed_le _ _ _,
     fun h => runRetry_exhaust "revoke_share_object" (revokeShareObjectStep req)
                TXN_MAX_RETRY_TIMES envs h⟩⟩

/-- Witness for `retry_budget_bounded`: against a KV that rejects every
commit (`succ = false` on every attempt), each of the six operations — run
on a store where its attempt reaches a commit — exhausts the budget and
yields `TxnRetryMaxTimes` naming itself. -/
theorem retry_budget_bounded_witness :
    create_share { if_not_exists := false, share_name := ⟨"A", "s1"⟩, comment := none, create_on := 1 }
        (fun _ => { st := stEmpty, newId := 5, succ := false })
      = .error (.TxnRetryMaxTimes "create_share" TXN_MAX_RETRY_TIMES) ∧
    drop_share { if_exists := false, share_name := ⟨"A", "s1"⟩ }
        (fun _ => { st := stShareDb, newId := 0, succ := false })
      = .error (.TxnRetryMaxTimes "drop_share" TXN_MAX_RETRY_TIMES) ∧
    add_share_tenants { if_exists := false, share_name := ⟨"A", "s1"⟩, accounts := ["C"], share_on := 2 }
        (fun _ => { st := stShareDb, newId := 0, succ := false })
      = .error (.TxnRetryMaxTimes "add_share_tenants" TXN_MAX_RETRY_TIMES) ∧
    remove_share_tenants { if_exists := false, share_name := ⟨"A", "s1"⟩, accounts := ["B"] }
        (fun _ => { st := stShareDb, newId := 0, succ := false })
      = .error (.TxnRetryMaxTimes "remove_share_tenants" TXN_MAX_RETRY_TIMES) ∧
    grant_share_object { share_name := ⟨"A", "s1"⟩, object := .Database "db", privilege := 4, grant_on := 20 }
        (fun _ => { st := stShareDb, newId := 0, succ := false })
      = .error (.TxnRetryMaxTimes "grant_share_object" TXN_MAX_RETRY_TIMES) ∧
    revoke_share_object { share_name := ⟨"A", "s1"⟩, object := .Database "db", privilege := 1, update_on := 21 }
        (fun _ => { st := stShareDb, newId := 0, succ := false })
      = .error (.TxnRetryMaxTimes "revoke_share_object" TXN_MAX_RETRY_TIMES) := by
  obtain ⟨h1, h2, h3, h4, h5, h6⟩ := retry_budget_bounded
  refine ⟨?_, ?_, ?_, ?_, ?_, ?_⟩
  · exact (h1 { if_not_exists := false, share_name := ⟨"A", "s1"⟩, comment := none, create_on := 1 }
      (fun _ => { st := stEmpty, newId := 5, succ := false })).2
      (fun k hk => ⟨rfl, rfl⟩)
  · exact (h2 { if_exists := false, share_name := ⟨"A", "s1"⟩ }
      (fun _ => { st := stShareDb, newId := 0, succ := false })).2
      (fun k hk => ⟨rfl, rfl⟩)
  · exact (h3 { if_exists := false, share_name := ⟨"A", "s1"⟩, accounts := ["C"], share_on := 2 }
      (fun _ => { st := stShareDb, newId := 0, succ := false })).2
      (fun k hk => ⟨rfl, rfl⟩)
  · exact (h4 { if_exists := false, share_name := ⟨"A", "s1"⟩, accounts := ["B"] }
      (fun _ => { st := stShareDb, newId := 0, succ := false })).2
      (fun k hk => ⟨rfl, rfl⟩)
  · exact (h5 { share_name := ⟨"A", "s1"⟩, object := .Database "db", privilege := 4, grant_on := 20 }
      (fun _ => { st := stShareDb, newId := 0, succ := false })).2
      (fun k hk => ⟨rfl, rfl⟩)
  · exact (h6 { share_name := ⟨"A", "s1"⟩, object := .Database "db", privilege := 1, update_on := 21 }
      (fun _ => { st := stShareDb, newId := 0, succ := false })).2
      (fun k hk => ⟨rfl, rfl⟩)

/-- A transaction installs nothing for `tenant`: no `ShareAccountNameIdent`
record keyed by `tenant` is put, and no `ShareMeta` value listing `tenant`
among its accounts is put. -/
def txnAvoidsTenant (tenant : String) (txn : TxnRequest) : Prop :=
  (∀ op ∈ txn.if_then, ∀ (ident : ShareAccountNameIdent) (v : Value),
     op = TxnOp.put (.shareAccount ident) v → ident.account ≠ tenant) ∧
  (∀ op ∈ txn.if_then, ∀ (id : Nat) (m : ShareMeta),
     op = TxnOp.put (.shareId id) (.shareMeta m) → tenant ∉ m.accounts)

/-- Accounts surviving the `add_share_tenants` filter differ from the owning
tenant. -/
theorem mem_add_filter_ne_tenant (accounts : List String) (t : String)
    (m : ShareMeta) (a : String)
    (h : a ∈ accounts.filter (fun account => !(account == t) && !(m.has_account account))) :
    a ≠ t := by
  have hp := (List.mem_filter.mp h).2
  rw [Bool.and_eq_true] at hp
  intro hat
  subst hat
  simp at hp

/-- C5: no mutating operation ever installs the owning tenant: whenever
`create_share`, `drop_share`, `add_share_tenants`, `remove_share_tenants`,
`grant_share_object` or `revoke_share_object` commits a transaction — under
the invariant that the share's current meta does not list the tenant — that
transaction puts no `ShareAccountNameIdent` record for the tenant and no
`ShareMeta` listing the tenant, even when the tenant appears in the request's
accounts list (it is silently skipped). -/
theorem owning_tenant_never_added :
    (∀ (req : CreateShareReq) (env : AttemptEnv) (txn : TxnRequest)
        (r : CreateShareReply),
      createShareStep req env = .commit txn r →
      txnAvoidsTenant req.share_name.tenant txn) ∧
    (∀ (req : DropShareReq) (env : AttemptEnv) (txn : TxnRequest)
        (r : DropShareReply),
      dropShareStep req env = .commit txn r →
      txnAvoidsTenant req.share_name.tenant txn) ∧
    (∀ (req : AddShareAccountsReq) (env : AttemptEnv) (a b c : Nat)
        (m : ShareMeta) (txn : TxnRequest) (r : AddShareAccountsReply),
      get_share_or_err env.st req.share_name = .ok (a, b, c, m) →
      req.share_name.tenant ∉ m.accounts →
      addShareTenantsStep req env = .commit txn r →
      txnAvoidsTenant req.share_name.tenant txn) ∧
    (∀ (req : RemoveShareAccountsReq) (env : AttemptEnv) (a b c : Nat)
        (m : ShareMeta) (txn : TxnRequest) (r : RemoveShareAccountsReply),
      get_share_or_err env.st req.share_name = .ok (a, b, c, m) →
      req.share_name.tenant ∉ m.accounts →
      removeShareTenantsStep req env = .commit txn r →
      txnAvoidsTenant req.share_name.tenant txn) ∧
    (∀ (req : GrantShareObjectReq) (env : AttemptEnv) (a b c : Nat)
        (m : ShareMeta) (txn : TxnRequest) (r : GrantShareObjectReply),
      get_share_or_err env.st req.share_name = .ok (a, b, c, m) →
      req.share_name.tenant ∉ m.accounts →
      grantShareObjectStep req env = .commit txn r →
      txnAvoidsTenant req.share_name.tenant txn) ∧
    (∀ (req : RevokeShareObjectReq) (env : AttemptEnv) (a b c : Nat)
        (m : ShareMeta) (txn : TxnRequest) (r : RevokeShareObjectReply),
      get_share_or_err env.st req.share_name = .ok (a, b, c, m) →
      req.share_name.tenant ∉ m.accounts →
      revokeShareObjectStep req env = .commit txn r →
      txnAvoidsTenant req.share_name.tenant txn) := by
  refine ⟨?_, ?_, ?_, ?_, ?_, ?_⟩
  · intro req env txn r htxn
    simp only [createShareStep] at htxn
    split at htxn
    · exact StepResult.noConfusion htxn
    · simp only [StepResult.commit.injEq] at htxn
      obtain ⟨htxn, -⟩ := htxn
      subst htxn
      constructor
      · intro op hop ident v hput
        simp only [List.mem_cons, List.not_mem_nil, or_false] at hop
        rcases hop with h | h | h <;> subst h <;>
          exact Key.noConfusion (TxnOp.put.inj hput).1
      · intro op hop id m hput
        simp only [List.mem_cons, List.not_mem_nil, or_false] at hop
        rcases hop with h | h | h <;> subst h
        · exact Key.noConfusion (TxnOp.put.inj hput).1
        · have hv := Value.shareMeta.inj (TxnOp.put.inj hput).2
          subst hv
          simp [ShareMeta.new]
        · exact Value.noConfusion (TxnOp.put.inj hput).2
  · intro req env txn r htxn
    unfold dropShareStep at htxn
    split at htxn
    · exact StepResult.noConfusion htxn
    · split at htxn
      · exact StepResult.noConfusion htxn
      · simp only [StepResult.commit.injEq] at htxn
        obtain ⟨htxn, -⟩ := htxn
        subst htxn
        constructor
        · intro op hop ident v hput
          simp only [List.mem_append, List.mem_cons, List.not_mem_nil, or_false] at hop
          rcases hop with (h | h | h) | h
          · subst h; exact TxnOp.noConfusion hput
          · subst h; exact TxnOp.noConfusion hput
          · subst h; exact TxnOp.noConfusion hput
          · obtain ⟨p, -, hp⟩ := List.mem_map.mp h
            subst hp
            exact TxnOp.noConfusion hput
        · intro op hop id m hput
          simp only [List.mem_append, List.mem_cons, List.not_mem_nil, or_false] at hop
          rcases hop with (h | h | h) | h
          · subst h; exact TxnOp.noConfusion hput
          · subst h; exact TxnOp.noConfusion hput
          · subst h; exact TxnOp.noConfusion hput
          · obtain ⟨p, -, hp⟩ := List.mem_map.mp h
            subst hp
            exact TxnOp.noConfusion hput
  · intro req env a b c m txn r h1 hm htxn
    unfold addShareTenantsStep at htxn
    simp only [h1] at htxn
    split at htxn
    · exact StepResult.noConfusion htxn
    · simp only [StepResult.commit.injEq] at htxn
      obtain ⟨htxn, -⟩ := htxn
      subst htxn
      constructor
      · intro op hop ident v hput
        simp only [List.mem_append, List.mem_cons, List.not_mem_nil, or_false] at hop
        rcases hop with h | h
        · obtain ⟨x, hx, hp⟩ := List.mem_map.mp h
          subst hp
          obtain ⟨hk, -⟩ := TxnOp.put.inj hput
          have hi := Key.shareAccount.inj hk
          subst hi
          exact mem_add_filter_ne_tenant req.accounts req.share_name.tenant m x hx
        · subst h
          exact Key.noConfusion (TxnOp.put.inj hput).1
      · intro op hop id m2 hput
        simp only [List.mem_append, List.mem_cons, List.not_mem_nil, or_false] at hop
        rcases hop with h | h
        · obtain ⟨x, hx, hp⟩ := List.mem_map.mp h
          subst hp
          exact Value.noConfusion (TxnOp.put.inj hput).2
        · subst h
          have hv := Value.shareMeta.inj (TxnOp.put.inj hput).2
          subst hv
          exact foldl_add_account_not_mem _ m req.share_name.tenant hm
            (fun bb hb => mem_add_filter_ne_tenant req.accounts req.share_name.tenant m bb hb)
  · intro req env a b c m txn r h1 hm htxn
    unfold removeShareTenantsStep at htxn
    simp only [h1] at htxn
    split at htxn
    · exact StepResult.noConfusion htxn
    · split at htxn
      · exact StepResult.noConfusion htxn
      · simp only [StepResult.commit.injEq] at htxn
        obtain ⟨htxn, -⟩ := htxn
        subst htxn
        constructor
        · intro op hop ident v hput
          simp only [List.mem_append, List.mem_cons, List.not_mem_nil, or_false] at hop
          rcases hop with h | h
          · obtain ⟨x, hx, hp⟩ := List.mem_map.mp h
            subst hp
            exact TxnOp.noConfusion hput
          · subst h
            exact Key.noConfusion (TxnOp.put.inj hput).1
        · intro op hop id m2 hput
          simp only [List.mem_append, List.mem_cons, List.not_mem_nil, or_false] at hop
          rcases hop with h | h
          · obtain ⟨x, hx, hp⟩ := List.mem_map.mp h
            subst hp
            exact TxnOp.noConfusion hput
          · subst h
            have hv := Value.shareMeta.inj (TxnOp.put.inj hput).2
            subst hv
            exact foldl_del_account_not_mem _ _ m req.share_name.tenant hm
  · intro req env a b c m txn r h1 hm htxn
    unfold grantShareObjectStep at htxn
    simp only [h1] at htxn
    split at htxn
    · exact StepResult.noConfusion htxn
    · split at htxn
      · exact StepResult.noConfusion htxn
      · split at htxn
        · exact StepResult.noConfusion htxn
        · exact StepResult.noConfusion htxn
        · simp only [StepResult.commit.injEq] at htxn
          obtain ⟨htxn, -⟩ := htxn
          subst htxn
          constructor
          · intro op hop ident v hput
            simp only [List.mem_append, List.mem_cons, List.not_mem_nil, or_false] at hop
            rcases hop with (h | h) | h
            · subst h; exact Key.noConfusion (TxnOp.put.inj hput).1
            · subst h; exact Key.noConfusion (TxnOp.put.inj hput).1
            · unfold add_grant_object_txn_if_then at h
              split at h
              · split at h
                · simp at h
                · simp only [List.mem_cons, List.not_mem_nil, or_false] at h
                  subst h
                  exact Key.noConfusion (TxnOp.put.inj hput).1
              · simp at h
          · intro op hop id m2 hput
            simp only [List.mem_append, List.mem_cons, List.not_mem_nil, or_false] at hop
            rcases hop with (h | h) | h
            · subst h
              have hv := Value.shareMeta.inj (TxnOp.put.inj hput).2
              subst hv
              rw [grant_object_privileges_accounts]
              exact hm
            · subst h
              exact Value.noConfusion (TxnOp.put.inj hput).2
            · unfold add_grant_object_txn_if_then at h
              split at h
              · split at h
                · simp at h
                · simp only [List.mem_cons, List.not_mem_nil, or_false] at h
                  subst h
                  exact Value.noConfusion (TxnOp.put.inj hput).2
              · simp at h
  · intro req env a b c m txn r h1 hm htxn
    unfold revokeShareObjectStep at htxn
    simp only [h1] at htxn
    split at htxn
    · exact StepResult.noConfusion htxn
    · split at htxn
      · exact StepResult.noConfusion htxn
      · split at htxn
        · exact StepResult.noConfusion htxn
        · exact StepResult.noConfusion htxn
        · split at htxn
          · exact StepResult.noConfusion htxn
          · rename_i m2 hrev
            simp only [StepResult.commit.injEq] at htxn
            obtain ⟨htxn, -⟩ := htxn
            subst htxn
            constructor
            · intro op hop ident v hput
              simp only [List.mem_append, List.mem_cons, List.not_mem_nil, or_false] at hop
              rcases hop with (h | h) | h
              · subst h; exact Key.noConfusion (TxnOp.put.inj hput).1
              · subst h; exact Key.noConfusion (TxnOp.put.inj hput).1
              · split at h
                · simp only [List.mem_cons, List.not_mem_nil, or_false] at h
                  subst h
                  exact Key.noConfusion (TxnOp.put.inj hput).1
                · simp at h
            · intro op hop id m3 hput
              simp only [List.mem_append, List.mem_cons, List.not_mem_nil, or_false] at hop
              rcases hop with (h | h) | h
              · subst h
                have hv := Value.shareMeta.inj (TxnOp.put.inj hput).2
                subst hv
                rw [revoke_object_privileges_accounts _ _ _ _ _ hrev]
                exact hm
              · subst h
                exact Value.noConfusion (TxnOp.put.inj hput).2
              · split at h
                · simp only [List.mem_cons, List.not_mem_nil, or_false] at h
                  subst h
                  exact Value.noConfusion (TxnOp.put.inj hput).2
                · simp at h

/-- The attempt environment over `stShareDb` used by several witnesses. -/
def envShareDb : AttemptEnv :=
  { st := stShareDb, newId := 0, succ := true }

/-- The transaction `drop_share` commits for share `A.s1` on `stShareDb`. -/
def txnDropC5 : TxnRequest :=
  { condition := [txn_cond_seq (.shareName ⟨"A", "s1"⟩) 3,
                  txn_cond_seq (.shareId 7) 5,
                  txn_cond_seq (.shareIdToName 7) 4,
                  txn_cond_seq (.shareAccount ⟨"B", 7⟩) 6]
    if_then := [txn_op_del (.shareName ⟨"A", "s1"⟩),
                txn_op_del (.shareId 7),
                txn_op_del (.shareIdToName 7),
                txn_op_del (.shareAccount ⟨"B", 7⟩)] }

/-- The transaction `add_share_tenants` commits when asked to add `C` and
the owning tenant `A` to share `A.s1`: `A` is skipped. -/
def txnAddC5 : TxnRequest :=
  { condition := [txn_cond_seq (.shareName ⟨"A", "s1"⟩) 3,
                  txn_cond_seq (.shareId 7) 5,
                  txn_cond_seq (.shareAccount ⟨"C", 7⟩) 0]
    if_then := [txn_op_put (.shareAccount ⟨"C", 7⟩)
                  (.accountMeta (ShareAccountMeta.new "C" 7 2)),
                txn_op_put (.shareId 7)
                  (.shareMeta { database :=
                                  some { object := .Database 1, privileges := 3, grant_on := 11 }
                                entries := []
                                accounts := ["B", "C"]
                                comment := none
                                share_on := 10
                                update_on := 10 })] }

/-- Witness for `owning_tenant_never_added` on tenant `A` and share `A.s1`:
each of the six operations commits a transaction that installs nothing for
`A`, including requests that explicitly list `A` among the accounts. -/
theorem owning_tenant_never_added_witness :
    (createShareStep reqCreateC1 { st := stEmpty, newId := 5, succ := true }
       = .commit txnCreateC1 { share_id := 5 } ∧
     txnAvoidsTenant "A" txnCreateC1) ∧
    (dropShareStep { if_exists := false, share_name := ⟨"A", "s1"⟩ } envShareDb
       = .commit txnDropC5 {} ∧
     txnAvoidsTenant "A" txnDropC5) ∧
    ("A" ∈ ["C", "A"] ∧
     addShareTenantsStep
         { if_exists := false, share_name := ⟨"A", "s1"⟩, accounts := ["C", "A"], share_on := 2 }
         envShareDb = .commit txnAddC5 {} ∧
     txnAvoidsTenant "A" txnAddC5) ∧
    ("A" ∈ ["B", "A"] ∧
     removeShareTenantsStep
         { if_exists := false, share_name := ⟨"A", "s1"⟩, accounts := ["B", "A"] }
         envShareDb = .commit txnRemoveC4 {} ∧
     txnAvoidsTenant "A" txnRemoveC4) ∧
    (grantShareObjectStep
         { share_name := ⟨"A", "s1"⟩, object := .Database "db", privilege := 4, grant_on := 20 }
         envShareDb = .commit txnGrantSharedC8 {} ∧
     txnAvoidsTenant "A" txnGrantSharedC8) ∧
    (revokeShareObjectStep
         { share_name := ⟨"A", "s1"⟩, object := .Database "db", privilege := 1, update_on := 21 }
         envShareDb = .commit txnRevokeDbC8 {} ∧
     txnAvoidsTenant "A" txnRevokeDbC8) := by
  obtain ⟨hc, hd, ha, hr, hg, hv⟩ := owning_tenant_never_added
  refine ⟨⟨rfl, hc reqCreateC1 { st := stEmpty, newId := 5, succ := true }
            txnCreateC1 { share_id := 5 } rfl⟩,
          ⟨rfl, hd { if_exists := false, share_name := ⟨"A", "s1"⟩ } envShareDb
            txnDropC5 {} rfl⟩,
          ⟨by decide, rfl,
           ha { if_exists := false, share_name := ⟨"A", "s1"⟩, accounts := ["C", "A"], share_on := 2 }
             envShareDb 3 7 5 metaShareDb txnAddC5 {} rfl (by decide) rfl⟩,
          ⟨by decide, rfl,
           hr { if_exists := false, share_name := ⟨"A", "s1"⟩, accounts := ["B", "A"] }
             envShareDb 3 7 5 metaShareDb txnRemoveC4 {} rfl (by decide) rfl⟩,
          ⟨rfl, hg { share_name := ⟨"A", "s1"⟩, object := .Database "db", privilege := 4, grant_on := 20 }
             envShareDb 3 7 5 metaShareDb txnGrantSharedC8 {} rfl (by decide) rfl⟩,
          ⟨rfl, hv { share_name := ⟨"A", "s1"⟩, object := .Database "db", privilege := 1, update_on := 21 }
             envShareDb 3 7 5 metaShareDb txnRevokeDbC8 {} rfl (by decide) rfl⟩⟩

/-- The member loop succeeds when every member's `ShareIdToName` and
`ShareMeta` records are present, collecting each member's grant entry (even
when the entry itself is absent). -/
theorem collectObjectGrantEntries_ok (σ : KVState) (object : ShareGrantObject) :
    ∀ (ids : List Nat) (nseqf : Nat → Nat) (names : Nat → ShareNameIdent)
      (mseqf : Nat → Nat) (metas : Nat → ShareMeta),
      (∀ id ∈ ids, get_share_id_to_name_or_err σ id = .ok (nseqf id, names id)) →
      (∀ id ∈ ids, get_share_meta_by_id_or_err σ id = .ok (mseqf id, metas id)) →
      collectObjectGrantEntries σ object ids
        = .ok (ids.map (fun id =>
            ((metas id).get_grant_entry object, (names id).share_name))) := by
  intro ids
  induction ids with
  | nil => intro _ _ _ _ _ _; rfl
  | cons x xs ih =>
      intro nseqf names mseqf metas hn hm
      unfold collectObjectGrantEntries
      rw [hn x (List.mem_cons_self x xs), hm x (List.mem_cons_self x xs),
          ih nseqf names mseqf metas
            (fun id hid => hn id (List.mem_cons_of_mem x hid))
            (fun id hid => hm id (List.mem_cons_of_mem x hid))]
      rfl

/-- C9 (amended): after the object's name resolves, the operation reads
`ShareIdToName` and `ShareMeta` for every member of the object's
`ObjectSharedByShareIds`; when all those records are present it emits
`{share_name, privileges, grant_on}` for exactly the members whose meta holds
a grant entry for the object — a member whose meta lacks the entry is
silently skipped — but a member whose `ShareIdToName` record is missing makes
the whole operation fail with that lookup error instead of being skipped. -/
theorem get_grant_privileges_skip_semantics :
    (∀ (σ : KVState) (tenant db_name : String) (dseq db_id : Nat)
        (nseqf : Nat → Nat) (names : Nat → ShareNameIdent)
        (mseqf : Nat → Nat) (metas : Nat → ShareMeta),
      get_u64_value σ (.dbNameIdent tenant db_name) = (dseq, db_id) →
      dseq ≠ 0 →
      (∀ id ∈ (get_object_shared_by_share_ids σ (.Database db_id)).2.share_ids,
        get_share_id_to_name_or_err σ id = .ok (nseqf id, names id)) →
      (∀ id ∈ (get_object_shared_by_share_ids σ (.Database db_id)).2.share_ids,
        get_share_meta_by_id_or_err σ id = .ok (mseqf id, metas id)) →
      get_grant_privileges_of_object σ { tenant := tenant, object := .Database db_name }
        = .ok { privileges :=
            ((get_object_shared_by_share_ids σ (.Database db_id)).2.share_ids.filterMap
              (fun id => ((metas id).get_grant_entry (.Database db_id)).map
                (fun e => { share_name := (names id).share_name
                            privileges := e.privileges
                            grant_on := e.grant_on }))) }) ∧
    (∀ (σ : KVState) (tenant db_name : String) (dseq db_id id0 : Nat)
        (rest : List Nat) (e : AppError),
      get_u64_value σ (.dbNameIdent tenant db_name) = (dseq, db_id) →
      dseq ≠ 0 →
      (get_object_shared_by_share_ids σ (.Database db_id)).2.share_ids = id0 :: rest →
      get_share_id_to_name_or_err σ id0 = .error e →
      get_grant_privileges_of_object σ { tenant := tenant, object := .Database db_name }
        = .error e) := by
  constructor
  · intro σ tenant db_name dseq db_id nseqf names mseqf metas hu hne hn hm
    unfold get_grant_privileges_of_object
    simp only [hu]
    rw [if_neg hne]
    rw [collectObjectGrantEntries_ok σ (.Database db_id) _ nseqf names mseqf metas hn hm]
    simp only [List.filterMap_map]
    rfl
  · intro σ tenant db_name dseq db_id id0 rest e hu hne hlist herr
    unfold get_grant_privileges_of_object
    simp only [hu]
    rw [if_neg hne]
    rw [hlist]
    unfold collectObjectGrantEntries
    rw [herr]

/-- KV state with database `db` (id 1) whose reverse index lists share id 9,
although no record of share 9 exists — a dangling index entry. -/
def stShareIdxDangling : KVState := fun k =>
  match k with
  | .dbNameIdent "A" "db" => (8, some (.u64 1))
  | .objectSharedBy (.Database 1) => (2, some (.shareIds { share_ids := [9] }))
  | _ => (0, none)

/-- The `stShareDb` extended with the reverse index listing share 7 for both
database 1 and table 2. -/
def stShareDbIdx : KVState := fun k =>
  match k with
  | .objectSharedBy (.Database 1) => (2, some (.shareIds { share_ids := [7] }))
  | .objectSharedBy (.Table 2) => (3, some (.shareIds { share_ids := [7] }))
  | _ => stShareDb k

/-- Witness for `get_grant_privileges_skip_semantics`: on `stShareDbIdx` the
database query emits share 7's entry, while share 7 — a member of table 2's
index without a grant entry for it — is silently skipped; on the dangling
index of `stShareIdxDangling` the query fails with `UnknownShareId 9`. -/
theorem get_grant_privileges_skip_witness :
    get_grant_privileges_of_object stShareDbIdx
        { tenant := "A", object := .Database "db" }
      = .ok { privileges := [{ share_name := "s1", privileges := 3, grant_on := 11 }] } ∧
    get_grant_privileges_of_object stShareIdxDangling
        { tenant := "A", object := .Database "db" }
      = .error (.UnknownShareId 9) := by
  constructor
  · exact (get_grant_privileges_skip_semantics.1 stShareDbIdx "A" "db" 8 1
      (fun _ => 4) (fun _ => ⟨"A", "s1"⟩) (fun _ => 5) (fun _ => metaShareDb)
      rfl (by decide)
      (by intro id hid
          have hid7 : id ∈ [7] := hid
          have : id = 7 := by simpa using hid7
          subst this
          rfl)
      (by intro id hid
          have hid7 : id ∈ [7] := hid
          have : id = 7 := by simpa using hid7
          subst this
          rfl))
  · exact get_grant_privileges_skip_semantics.2 stShareIdxDangling "A" "db" 8 1 9 []
      (.UnknownShareId 9) rfl (by decide) rfl rfl

/-- Counterexample to C9 as stated: on `stShareIdxDangling`, share id 9 is a
member of database 1's `ObjectSharedByShareIds` but has no `ShareIdToName`
record; instead of silently skipping the member, the operation fails with
`UnknownShareId 9`. -/
theorem get_grant_privileges_missing_record_fails :
    9 ∈ (get_object_shared_by_share_ids stShareIdxDangling (.Database 1)).2.share_ids ∧
    (stShareIdxDangling (.shareIdToName 9)).1 = 0 ∧
    get_grant_privileges_of_object stShareIdxDangling
        { tenant := "A", object := .Database "db" }
      = .error (.UnknownShareId 9) :=
  ⟨by decide, rfl, rfl⟩

end ShareCatalog
